import Mathlib

/-!
Verification of the trading-bot core against its natural-language
specification.  Python source is shallowly embedded: exact decimals become
`ℚ`, integer millisecond timestamps become `ℕ`, Python dicts become
insertion-ordered association lists, and fallible/stateful code becomes
explicit state passing.
-/

namespace TradingBot

/-- Tick classification returned by `Candles.update`
(`modules/models/types.py`, class `TickType`). -/
inductive TickType where
  | NEW_CANDLE
  | SAME_CANDLE
  | MISSING_CANDLE
deriving DecidableEq, Repr

/-- One OHLCV bar (`modules/models/exchange.py`, `CandleModel`).
`open` is a Lean keyword, hence the field name `open_`. -/
structure CandleModel where
  open_ : ℚ
  high : ℚ
  low : ℚ
  close : ℚ
  volume : ℚ
  timestamp : ℕ
deriving DecidableEq, Repr

/-- A public trade event (`modules/models/line.py`, `TradeUpdateModel`);
the `is_buyer_maker` flag plays no role in the aggregator and is omitted. -/
structure TradeUpdateModel where
  price : ℚ
  quantity : ℚ
  timestamp : ℕ
deriving DecidableEq, Repr

/-- The candle-ring aggregator state (`services/bot/candles/candles.py`,
class `Candles`).  The lazily rebuilt indicator frame (`self._technical`)
is derived read-only state and is outside this embedding. -/
structure Candles where
  timeframe_ms : ℕ
  candles_limit : ℕ
  raw : List CandleModel
deriving DecidableEq, Repr

/-- `Candles._append`: push a candle and enforce the ring bound by
dropping the oldest entry (`self._raw.pop(0)`). -/
def Candles.appendCandle (s : Candles) (c : CandleModel) : Candles :=
  if s.candles_limit < (s.raw ++ [c]).length
  then { s with raw := (s.raw ++ [c]).drop 1 }
  else { s with raw := s.raw ++ [c] }

/-- `Candles._update(index=-1, close, volume)`: overwrite close and volume
of a candle, then widen low/high against the new close. -/
def CandleModel.updateClose (c : CandleModel) (close volume : ℚ) : CandleModel :=
  { c with
    close := close
    volume := volume
    low := if close < c.low then close else c.low
    high := if c.high < close then close else c.high }

/-- Bucketing of the first trade timestamp in `Candles.update`:
`datetime.fromtimestamp(ts/1000)` is truncated to the hour
(`replace(second=0, microsecond=0, minute=0)`) and then
`timedelta(hours=t.minute // 30)` is added — one whole HOUR when the
minute is at least 30.  The process-local timezone is taken to be UTC. -/
def seedTimestamp (ts_ms : ℕ) : ℕ :=
  let s := ts_ms / 1000
  let hourStart := s / 3600 * 3600
  let minute := s % 3600 / 60
  (hourStart + 3600 * (minute / 30)) * 1000

/-- The flat gap candles synthesized by the `Missing candles` branch of
`Candles.update`: one candle per `n in range(1, missing_cnt + 1)` at
`last.timestamp + timeframe_ms * n`, priced at the previous close. -/
def flatCandles (last : CandleModel) (period cnt : ℕ) : List CandleModel :=
  (List.range cnt).map fun n =>
    { open_ := last.close
      high := last.close
      low := last.close
      close := last.close
      volume := 0
      timestamp := last.timestamp + period * (n + 1) }

/-- `Candles.update(trade)` (`services/bot/candles/candles.py`).
Returns the new state and the `TickType` (`None` on the seeding path).
The `last_candle.high/low` assignments in the source mutate a throwaway
`CandleModel(**self._raw[-1])` copy; the ring's high/low are maintained
inside `Candles._update` via the new close, embedded in `updateClose`. -/
def Candles.update (s : Candles) (model : TradeUpdateModel) :
    Candles × Option TickType :=
  match s.raw.getLast? with
  | none =>
      let ts := seedTimestamp model.timestamp
      let c : CandleModel :=
        { open_ := model.price, high := model.price, low := model.price
          close := model.price, volume := 0, timestamp := ts }
      (s.appendCandle c, none)
  | some last_candle =>
      if model.timestamp < last_candle.timestamp + s.timeframe_ms then
        let volume := last_candle.volume + model.quantity
        ({ s with raw := s.raw.dropLast ++
            [last_candle.updateClose model.price volume] },
         some TickType.SAME_CANDLE)
      else if last_candle.timestamp + s.timeframe_ms * 2 ≤ model.timestamp then
        let missing_cnt :=
          (model.timestamp - last_candle.timestamp) / s.timeframe_ms - 1
        ((flatCandles last_candle s.timeframe_ms missing_cnt).foldl
            Candles.appendCandle s,
         some TickType.MISSING_CANDLE)
      else
        let c : CandleModel :=
          { open_ := model.price, high := model.price, low := model.price
            close := model.price, volume := model.quantity
            timestamp := last_candle.timestamp + s.timeframe_ms }
        (s.appendCandle c, some TickType.NEW_CANDLE)

/-- `Candles.__getitem__` for an integer index: Python indexing with
negative-index wrap, `IndexError` caught and turned into `None`. -/
def Candles.getItem (s : Candles) (i : ℤ) : Option CandleModel :=
  let j : ℤ := if i < 0 then i + s.raw.length else i
  if 0 ≤ j then s.raw.get? j.toNat else none

/-- Strictly increasing bar-open timestamps along the ring. -/
def Candles.tsSorted (s : Candles) : Prop :=
  s.raw.Chain' fun a b => a.timestamp < b.timestamp

instance (s : Candles) : Decidable s.tsSorted :=
  inferInstanceAs (Decidable (List.Chain'
    (fun a b : CandleModel => a.timestamp < b.timestamp) s.raw))

lemma CandleModel.updateClose_timestamp (c : CandleModel) (p v : ℚ) :
    (c.updateClose p v).timestamp = c.timestamp := rfl

lemma Candles.appendCandle_tsSorted {s : Candles} {c : CandleModel}
    (hs : s.tsSorted)
    (hlast : ∀ a ∈ s.raw.getLast?, a.timestamp < c.timestamp) :
    (s.appendCandle c).tsSorted := by
  have hch : (s.raw ++ [c]).Chain' fun a b => a.timestamp < b.timestamp := by
    rw [List.chain'_append]
    refine ⟨hs, List.chain'_singleton c, ?_⟩
    intro a ha b hb
    simp only [List.head?_cons, Option.mem_def, Option.some.injEq] at hb
    subst hb
    exact hlast a ha
  unfold Candles.tsSorted Candles.appendCandle
  split
  · show List.Chain' (fun a b => a.timestamp < b.timestamp) ((s.raw ++ [c]).drop 1)
    rw [List.drop_one]
    exact hch.tail
  · exact hch

lemma Candles.appendCandle_getLast {s : Candles} {c a : CandleModel}
    (h : (s.appendCandle c).raw.getLast? = some a) : a = c := by
  unfold Candles.appendCandle at h
  split at h
  · cases hr : s.raw with
    | nil => rw [hr] at h; simp at h
    | cons x xs =>
        rw [hr] at h
        simp only [List.cons_append, List.drop_one, List.tail_cons,
          List.getLast?_concat, Option.some.injEq] at h
        exact h.symm
  · rw [List.getLast?_concat] at h
    exact (Option.some.injEq _ _ ▸ h).symm

lemma Candles.foldl_appendCandle_tsSorted :
    ∀ (cs : List CandleModel) (s : Candles), s.tsSorted →
      cs.Chain' (fun a b => a.timestamp < b.timestamp) →
      (∀ a ∈ s.raw.getLast?, ∀ b ∈ cs.head?, a.timestamp < b.timestamp) →
      (cs.foldl Candles.appendCandle s).tsSorted := by
  intro cs
  induction cs with
  | nil => intro s hs _ _; exact hs
  | cons c rest ih =>
      intro s hs hchain hlink
      have hs' : (s.appendCandle c).tsSorted := by
        refine Candles.appendCandle_tsSorted hs ?_
        intro a ha
        exact hlink a ha c (by simp)
      refine ih (s.appendCandle c) hs' hchain.tail ?_
      intro a ha b hb
      have hac : a = c := Candles.appendCandle_getLast ha
      subst hac
      rcases rest with _ | ⟨r, rs⟩
      · simp at hb
      · simp only [List.head?_cons, Option.mem_def, Option.some.injEq] at hb
        subst hb
        exact (List.chain'_cons.mp hchain).1

lemma flatCandles_chain {last : CandleModel} {period : ℕ} (cnt : ℕ)
    (hP : 0 < period) :
    (flatCandles last period cnt).Chain'
      (fun a b => a.timestamp < b.timestamp) := by
  unfold flatCandles
  rw [List.chain'_map]
  have hpw : (List.range cnt).Pairwise (· < ·) := List.pairwise_lt_range cnt
  refine List.Pairwise.chain' (hpw.imp ?_)
  intro a b hab
  simp only
  have h1 : period * (a + 1) ≤ period * b :=
    Nat.mul_le_mul (le_refl period) (by omega)
  have h2 : period * (b + 1) = period * b + period := by ring
  omega

lemma flatCandles_head {last : CandleModel} {period cnt : ℕ}
    {b : CandleModel} (hb : b ∈ (flatCandles last period cnt).head?) :
    b.timestamp = last.timestamp + period := by
  cases cnt with
  | zero => simp [flatCandles] at hb
  | succ n =>
      simp only [flatCandles, List.range_succ_eq_map, List.map_cons,
        List.head?_cons, Option.mem_def, Option.some.injEq] at hb
      subst hb
      simp

/-- Claim C9 — for every trade whose timestamp is strictly below the last
candle's bar-open, `Candles.update` classifies it as SAME_CANDLE and folds
its price and quantity into the latest candle (leaving every bar-open
timestamp unchanged); and under every update the ring's timestamps remain
strictly increasing. -/
theorem candles_backdated_same_candle_sorted (s : Candles)
    (m : TradeUpdateModel) (hP : 0 < s.timeframe_ms) (hs : s.tsSorted) :
    (s.update m).1.tsSorted ∧
    (∀ last, s.raw.getLast? = some last → m.timestamp < last.timestamp →
      (s.update m).2 = some TickType.SAME_CANDLE ∧
      (s.update m).1.raw = s.raw.dropLast ++
        [last.updateClose m.price (last.volume + m.quantity)] ∧
      (s.update m).1.raw.map CandleModel.timestamp =
        s.raw.map CandleModel.timestamp) := by
  constructor
  · -- strict ordering is preserved by every update
    unfold Candles.update
    cases hlast : s.raw.getLast? with
    | none => exact Candles.appendCandle_tsSorted hs (by simp [hlast])
    | some last =>
        have hne : s.raw ≠ [] := by
          intro h; rw [h] at hlast; simp at hlast
        have hdecomp : s.raw.dropLast ++ [s.raw.getLast hne] = s.raw :=
          List.dropLast_append_getLast hne
        have hlast_eq : s.raw.getLast hne = last := by
          have := List.getLast?_eq_getLast s.raw hne
          rw [this] at hlast
          exact (Option.some.injEq _ _ ▸ hlast)
        have hdecomp2 : s.raw = s.raw.dropLast ++ [last] := by
          rw [← hlast_eq]; exact hdecomp.symm
        have hs2 : (s.raw.dropLast ++ [last]).Chain'
            (fun a b => a.timestamp < b.timestamp) := by
          have hs' := hs
          unfold Candles.tsSorted at hs'
          rwa [hdecomp2] at hs'
        rw [List.chain'_append] at hs2
        simp only
        split
        · -- SAME_CANDLE branch: last element replaced, timestamp kept
          unfold Candles.tsSorted
          rw [List.chain'_append]
          refine ⟨hs2.1, List.chain'_singleton _, ?_⟩
          intro a ha b hb
          simp only [List.head?_cons, Option.mem_def, Option.some.injEq] at hb
          subst hb
          rw [CandleModel.updateClose_timestamp]
          exact hs2.2.2 a ha last (by simp)
        · split
          · -- MISSING_CANDLE branch: flat candles appended in order
            refine Candles.foldl_appendCandle_tsSorted _ s hs
              (flatCandles_chain _ hP) ?_
            intro a ha b hb
            rw [hlast] at ha
            simp only [Option.mem_def, Option.some.injEq] at ha
            subst ha
            rw [flatCandles_head hb]
            omega
          · -- NEW_CANDLE branch: one candle one period later
            refine Candles.appendCandle_tsSorted hs ?_
            intro a ha
            rw [hlast] at ha
            simp only [Option.mem_def, Option.some.injEq] at ha
            subst ha
            simp only
            omega
  · intro last hlast hback
    have hne : s.raw ≠ [] := by
      intro h; rw [h] at hlast; simp at hlast
    have hcond : m.timestamp < last.timestamp + s.timeframe_ms := by omega
    have hdecomp : s.raw.dropLast ++ [s.raw.getLast hne] = s.raw :=
      List.dropLast_append_getLast hne
    have hlast_eq : s.raw.getLast hne = last := by
      have := List.getLast?_eq_getLast s.raw hne
      rw [this] at hlast
      exact (Option.some.injEq _ _ ▸ hlast)
    have hdecomp2 : s.raw = s.raw.dropLast ++ [last] := by
      rw [← hlast_eq]; exact hdecomp.symm
    unfold Candles.update
    rw [hlast]
    simp only [if_pos hcond]
    refine ⟨by trivial, by trivial, ?_⟩
    conv_rhs => rw [hdecomp2]
    rw [List.map_append, List.map_append]
    simp [CandleModel.updateClose_timestamp]

/-- Concrete instance of claim C9: a ring at bar-opens 0 and 300000 ms,
fed a trade backdated to 100 ms; the update is SAME_CANDLE and the
bar-opens are untouched. -/
theorem candles_backdated_same_candle_sorted_witness :
    (0 < (Candles.mk 300000 100
        [⟨1, 1, 1, 1, 0, 0⟩, ⟨2, 3, 1, 2, 5, 300000⟩]).timeframe_ms) ∧
    ((Candles.mk 300000 100
        [⟨1, 1, 1, 1, 0, 0⟩, ⟨2, 3, 1, 2, 5, 300000⟩]).update
          ⟨4, 7, 100⟩).2 = some TickType.SAME_CANDLE ∧
    (((Candles.mk 300000 100
        [⟨1, 1, 1, 1, 0, 0⟩, ⟨2, 3, 1, 2, 5, 300000⟩]).update
          ⟨4, 7, 100⟩).1).raw.map CandleModel.timestamp = [0, 300000] := by
  have h := candles_backdated_same_candle_sorted
    (Candles.mk 300000 100 [⟨1, 1, 1, 1, 0, 0⟩, ⟨2, 3, 1, 2, 5, 300000⟩])
    ⟨4, 7, 100⟩ (by decide) (List.chain'_pair.mpr (by decide))
  have h2 := h.2 ⟨2, 3, 1, 2, 5, 300000⟩ (by decide) (by decide)
  refine ⟨by decide, h2.1, ?_⟩
  rw [h2.2.2]
  decide

/-- Claim C7 counterexample — on the spec scenario S1 (5 m aggregator,
trade price 30000, qty 1, ts 1_700_000_037_000) the seeded candle's
bar-open is 1_699_999_200_000 (the enclosing UTC hour, the trade's minute
being 13), not the 1_700_000_000_000 the claim expects. -/
theorem candles_seed_s1_counterexample :
    ((Candles.mk 300000 100 []).update
        ⟨30000, 1, 1700000037000⟩).1.raw.map CandleModel.timestamp
      = [1699999200000] ∧
    ¬ ((Candles.mk 300000 100 []).update
        ⟨30000, 1, 1700000037000⟩).1.raw.map CandleModel.timestamp
      = [1700000000000] := by
  decide

/-- Claim C7 (amended) — with an empty ring, `Candles.update` seeds exactly
one candle with open=high=low=close=trade.price and volume 0 and returns
NONE; its bar-open is the start of the trade's UTC hour plus one hour when
the trade's minute is at least 30 (`seedTimestamp`), which for the trade of
scenario S1 is 1_699_999_200_000. -/
theorem candles_seed_first_trade (s : Candles) (m : TradeUpdateModel)
    (h : s.raw = []) (hl : 0 < s.candles_limit) :
    (s.update m).2 = none ∧
    (s.update m).1.raw =
      [{ open_ := m.price, high := m.price, low := m.price,
         close := m.price, volume := 0,
         timestamp := seedTimestamp m.timestamp }] ∧
    seedTimestamp 1700000037000 = 1699999200000 := by
  obtain ⟨tf, lim, raw⟩ := s
  replace h : raw = [] := h
  replace hl : 0 < lim := hl
  subst h
  unfold Candles.update Candles.appendCandle
  simp only [List.getLast?_nil, List.nil_append, List.length_singleton]
  rw [if_neg (by omega : ¬ lim < 1)]
  exact ⟨by trivial, by trivial, by decide⟩

/-- Concrete instance of claim C7 (amended) at scenario S1. -/
theorem candles_seed_first_trade_witness :
    (Candles.mk 300000 100 []).raw = [] ∧
    0 < (Candles.mk 300000 100 []).candles_limit ∧
    ((Candles.mk 300000 100 []).update ⟨30000, 1, 1700000037000⟩).2 = none ∧
    ((Candles.mk 300000 100 []).update ⟨30000, 1, 1700000037000⟩).1.raw =
      [⟨30000, 30000, 30000, 30000, 0, 1699999200000⟩] := by
  have h := candles_seed_first_trade (Candles.mk 300000 100 [])
    ⟨30000, 1, 1700000037000⟩ rfl (by decide)
  refine ⟨rfl, by decide, h.1, ?_⟩
  rw [h.2.1]
  decide

/-- Claim C10 — `Candles.__getitem__` with an integer index is total: an
index outside `[-len, len)` yields `none` (the caught `IndexError`), a
nonnegative in-range index yields the candle stored at that index, and a
negative in-range index wraps by the ring length, Python style. -/
theorem candles_getitem_total (s : Candles) (i : ℤ) :
    ((i < -(s.raw.length : ℤ) ∨ (s.raw.length : ℤ) ≤ i) →
      s.getItem i = none) ∧
    (0 ≤ i → i < (s.raw.length : ℤ) →
      s.getItem i = s.raw.get? i.toNat ∧
      (s.raw.get? i.toNat).isSome = true) ∧
    (-(s.raw.length : ℤ) ≤ i → i < 0 →
      s.getItem i = s.raw.get? (i + s.raw.length).toNat ∧
      (s.raw.get? (i + s.raw.length).toNat).isSome = true) := by
  unfold Candles.getItem
  refine ⟨?_, ?_, ?_⟩
  · intro hout
    rcases hout with hlt | hge
    · rw [if_pos (by omega : i < 0), if_neg (by omega : ¬ (0:ℤ) ≤ i + s.raw.length)]
    · have hnn : ¬ i < 0 := by omega
      rw [if_neg hnn, if_pos (by omega : (0:ℤ) ≤ i)]
      exact List.get?_eq_none.mpr (by omega)
  · intro h0 hlen
    have hnn : ¬ i < 0 := by omega
    rw [if_neg hnn, if_pos h0]
    have hlt : i.toNat < s.raw.length := by omega
    exact ⟨rfl, by simp [List.getElem?_eq_getElem hlt]⟩
  · intro hge hneg
    rw [if_pos hneg, if_pos (by omega : (0:ℤ) ≤ i + s.raw.length)]
    have hlt : (i + s.raw.length).toNat < s.raw.length := by omega
    exact ⟨rfl, by simp [List.getElem?_eq_getElem hlt]⟩

/-- Concrete instance of claim C10: index 1 and index −5 on a
two-candle ring. -/
theorem candles_getitem_total_witness :
    ((Candles.mk 60000 100
        [⟨1, 1, 1, 1, 0, 0⟩, ⟨2, 2, 2, 2, 0, 60000⟩]).getItem (-5) = none) ∧
    ((Candles.mk 60000 100
        [⟨1, 1, 1, 1, 0, 0⟩, ⟨2, 2, 2, 2, 0, 60000⟩]).getItem 1 =
      some ⟨2, 2, 2, 2, 0, 60000⟩) := by
  have h5 := (candles_getitem_total (Candles.mk 60000 100
    [⟨1, 1, 1, 1, 0, 0⟩, ⟨2, 2, 2, 2, 0, 60000⟩]) (-5)).1 (by left; decide)
  have h1 := ((candles_getitem_total (Candles.mk 60000 100
    [⟨1, 1, 1, 1, 0, 0⟩, ⟨2, 2, 2, 2, 0, 60000⟩]) 1).2.1 (by decide)
    (by decide)).1
  exact ⟨h5, by rw [h1]; decide⟩

/-!  Order-book depth reconstruction (`services/bot/depth/depth.py`).
A Python dict is embedded as an insertion-ordered association list with
unique keys. -/

/-- A price→quantity map (one side of the book). -/
abbrev PriceMap := List (ℚ × ℚ)

/-- `container.pop(price, None)`. -/
def popKey : PriceMap → ℚ → PriceMap
  | [], _ => []
  | kv :: rest, p => if kv.1 = p then rest else kv :: popKey rest p

/-- `container[price] = quantity`: overwrite in place, else append. -/
def setKey : PriceMap → ℚ → ℚ → PriceMap
  | [], p, q => [(p, q)]
  | kv :: rest, p, q => if kv.1 = p then (p, q) :: rest else kv :: setKey rest p q

/-- `price in container`. -/
def hasKey (c : PriceMap) (p : ℚ) : Bool := c.any fun kv => kv.1 = p

/-- Stable ascending insertion by QUANTITY (the `.2` component):
Python's stable `sorted(container, key=container.get)` sorts the keys by
their mapped value, i.e. by quantity, ties keeping insertion order. -/
def insertByVal (a : ℚ × ℚ) : PriceMap → PriceMap
  | [] => [a]
  | b :: l => if b.2 < a.2 then b :: insertByVal a l else a :: b :: l

/-- `sorted(container, key=container.get)` — sort the levels by quantity. -/
def sortByVal : PriceMap → PriceMap
  | [] => []
  | a :: l => insertByVal a (sortByVal l)

/-- One `(price, quantity)` step of `Depth._update`: quantity 0 pops the
price; otherwise the price is set and, when the price is new, the whole
side is rebuilt as the first `limit` keys of the QUANTITY-sorted dict
(`sorted(container, key=container.get)[:self._limit]`). -/
def depthSetLevel (limit : ℕ) (container : PriceMap) (price quantity : ℚ) :
    PriceMap :=
  if quantity = 0 then popKey container price
  else
    let is_sort_required := ¬ hasKey container price
    let container1 := setKey container price quantity
    if is_sort_required then (sortByVal container1).take limit else container1

/-- `Depth._update(items, container)`. -/
def depthUpdateSide (limit : ℕ) (items : List (ℚ × ℚ))
    (container : PriceMap) : PriceMap :=
  items.foldl (fun c item => depthSetLevel limit c item.1 item.2) container

/-- A `{symbol}@depth` diff (`modules/models/line.py`, `DepthUpdateModel`);
symbol and timestamp are routing-only and omitted. -/
structure DepthUpdateModel where
  first_update_id : ℕ
  last_update_id : ℕ
  bids : List (ℚ × ℚ)
  asks : List (ℚ × ℚ)
deriving DecidableEq, Repr

/-- A depth snapshot (`modules/models/exchange.py`, `DepthModel`). -/
structure DepthModel where
  last_update_id : ℕ
  bids : List (ℚ × ℚ)
  asks : List (ℚ × ℚ)
deriving DecidableEq, Repr

/-- The `Depth` object's state.  The gap-callback set is modelled by a
counter of firings (`gap_events`); the deferred-update `Queue` is a FIFO
list. -/
structure Depth where
  limit : ℕ
  bids : PriceMap
  asks : PriceMap
  last_update_id : ℕ
  is_snapshot_set : Bool
  is_first_update_processed : Bool
  queue : List DepthUpdateModel
  gap_events : ℕ
deriving DecidableEq, Repr

/-- `Depth.update(model)`.  Mirrors the source exactly; in particular the
sequence-gap branch performs `self._asks.clear()` TWICE and never clears
`self._bids`, so the bids map survives the reset. -/
def Depth.update (d : Depth) (model : DepthUpdateModel) : Depth :=
  if d.is_snapshot_set = false then
    { d with queue := d.queue ++ [model] }
  else if d.is_first_update_processed then
    if model.first_update_id = d.last_update_id + 1 then
      { d with
        bids := depthUpdateSide d.limit model.bids d.bids
        asks := depthUpdateSide d.limit model.asks d.asks
        last_update_id := model.last_update_id }
    else
      { d with
        last_update_id := 0
        is_snapshot_set := false
        is_first_update_processed := false
        asks := []
        gap_events := d.gap_events + 1 }
  else
    if model.last_update_id ≤ d.last_update_id then d
    else if d.last_update_id = 0 ∨
        (model.first_update_id ≤ d.last_update_id + 1 ∧
          d.last_update_id + 1 ≤ model.last_update_id) then
      { d with
        bids := depthUpdateSide d.limit model.bids d.bids
        asks := depthUpdateSide d.limit model.asks d.asks
        last_update_id := model.last_update_id
        is_first_update_processed := true }
    else d

/-- `Depth.set_snapshot(model)`: clear both maps, absorb the snapshot,
mark it set, then drain the deferred queue through `update`.  The drain is
one FIFO pass; items that `update` re-enqueues (possible only when a gap
fires mid-drain) stay queued rather than being reprocessed, where the
Python `while` would spin on them forever. -/
def Depth.set_snapshot (d : Depth) (model : DepthModel) : Depth :=
  let d1 : Depth :=
    { d with
      bids := depthUpdateSide d.limit model.bids []
      asks := depthUpdateSide d.limit model.asks []
      last_update_id := model.last_update_id
      is_snapshot_set := true }
  d.queue.foldl Depth.update { d1 with queue := [] }

/-- Claim C4 — when inserting a new price overflows `limit`, the source
keeps the `limit` keys with the SMALLEST QUANTITIES (it sorts by
`container.get`, the mapped quantity), not the best prices: with limit 1,
a bid side holding price 10 (qty 5) and an incoming level price 20
(qty 7) retains price 10 and discards the better bid 20.  The
remove-on-zero and overwrite parts behave as claimed. -/
theorem depth_truncation_sorts_by_quantity :
    depthUpdateSide 1 [(20, 7)] [(10, 5)] = [(10, 5)] ∧
    depthUpdateSide 1 [(20, 7)] [(10, 5)] ≠ [(20, 7)] ∧
    depthUpdateSide 2 [(10, 0)] [(10, 5), (20, 7)] = [(20, 7)] ∧
    depthUpdateSide 2 [(10, 9)] [(10, 5), (20, 7)] = [(10, 9), (20, 7)] := by
  decide

/-- Claim C5 — scenario: snapshot at id 100 with one bid and one ask, an
accepted first update adding a bid, then a gapped update (105 ≠ 102).
The gap branch zeroes the id, clears the flags, fires the gap callback
once — but leaves the BIDS map populated (the source clears `_asks`
twice instead of clearing `_bids`). -/
theorem depth_gap_reset_keeps_bids :
    (((Depth.mk 100 [] [] 0 false false [] 0).set_snapshot
        (DepthModel.mk 100 [(100, 1)] [(200, 1)])).update
        (DepthUpdateModel.mk 101 101 [(99, 1)] [])).update
        (DepthUpdateModel.mk 105 106 [] []) =
      Depth.mk 100 [(100, 1), (99, 1)] [] 0 false false [] 1 ∧
    [(100, 1), (99, 1)] ≠ ([] : PriceMap) := by
  decide

/-!  Trailing stop (`modules/models/commands.py`, class `TrailingStop`). -/

/-- `modules/models/types.py`, `OrderSide`. -/
inductive OrderSide where
  | BUY
  | SELL
deriving DecidableEq, Repr

/-- Best bid / best ask (`modules/models/line.py`, `BookUpdateModel`). -/
structure BookUpdateModel where
  bid : ℚ
  ask : ℚ
deriving DecidableEq, Repr

/-- The trailing-stop command state: the reference book is mutated in
place on a favorable move.  `contract` (used only for log formatting) and
`next_command` (yielded by the surrounding handler on trigger) do not
enter `update` and are omitted here. -/
structure TrailingStop where
  order_side : OrderSide
  callback_rate : ℚ
  book : BookUpdateModel
deriving DecidableEq, Repr

/-- `TrailingStop.stop_size`. -/
def TrailingStop.stop_size (c : TrailingStop) : ℚ :=
  match c.order_side with
  | .BUY => c.book.bid * c.callback_rate
  | .SELL => c.book.ask * c.callback_rate

/-- `TrailingStop.stop_loss`. -/
def TrailingStop.stop_loss (c : TrailingStop) : ℚ :=
  match c.order_side with
  | .BUY => c.book.bid + c.stop_size
  | .SELL => c.book.ask - c.stop_size

/-- `TrailingStop.update(book)`: returns the (possibly re-referenced)
command and the `triggered` flag. -/
def TrailingStop.update (c : TrailingStop) (book : BookUpdateModel) :
    TrailingStop × Bool :=
  if book.bid ≤ 0 ∨ book.ask ≤ 0 then (c, false)
  else
    match c.order_side with
    | .BUY =>
        if book.bid + c.stop_size < c.stop_loss then
          ({ c with book := book }, false)
        else if c.stop_loss ≤ book.bid then (c, true)
        else (c, false)
    | .SELL =>
        if c.stop_loss < book.ask - c.stop_size then
          ({ c with book := book }, false)
        else if book.ask ≤ c.stop_loss then (c, true)
        else (c, false)

/-- Feeding a sequence of books through `update`, collecting the
triggered flags (the per-tick behaviour of the command pipeline). -/
def TrailingStop.run (c : TrailingStop) :
    List BookUpdateModel → TrailingStop × List Bool
  | [] => (c, [])
  | b :: rest =>
      let r := c.update b
      let rr := r.1.run rest
      (rr.1, r.2 :: rr.2)

/-- For a BUY-side command with positive rate and reference, `update`
triggers exactly when the bid has RISEN to `(1 + rate) ×` the reference
bid, and the reference tracks the running minimum of the bids. -/
lemma trailing_update_buy (c : TrailingStop) (book : BookUpdateModel)
    (hside : c.order_side = OrderSide.BUY) (hrate : 0 < c.callback_rate)
    (hpos : 0 < c.book.bid) (hb : 0 < book.bid) (ha : 0 < book.ask) :
    ((c.update book).2 = true ↔
      c.book.bid * (1 + c.callback_rate) ≤ book.bid) ∧
    (c.update book).1.book.bid = min c.book.bid book.bid := by
  have hnot : ¬ (book.bid ≤ 0 ∨ book.ask ≤ 0) := by
    push_neg; exact ⟨hb, ha⟩
  have hsize : c.stop_size = c.book.bid * c.callback_rate := by
    unfold TrailingStop.stop_size; rw [hside]
  have hloss : c.stop_loss = c.book.bid + c.book.bid * c.callback_rate := by
    unfold TrailingStop.stop_loss TrailingStop.stop_size; rw [hside]
  have hlow_iff : book.bid + c.stop_size < c.stop_loss ↔
      book.bid < c.book.bid := by
    rw [hsize, hloss]; constructor <;> intro h <;> linarith
  unfold TrailingStop.update
  rw [if_neg hnot, hside]
  by_cases hlow : book.bid + c.stop_size < c.stop_loss
  · rw [if_pos hlow]
    have hblt : book.bid < c.book.bid := hlow_iff.mp hlow
    have hrhs : ¬ c.book.bid * (1 + c.callback_rate) ≤ book.bid := by
      have : c.book.bid < c.book.bid * (1 + c.callback_rate) := by
        nlinarith
      linarith
    exact ⟨by simp [hrhs], by
      simp only
      rw [min_eq_right (le_of_lt hblt)]⟩
  · rw [if_neg hlow]
    have hble : c.book.bid ≤ book.bid := by
      by_contra hcon
      exact hlow (hlow_iff.mpr (by linarith))
    have hmin : min c.book.bid book.bid = c.book.bid := min_eq_left hble
    by_cases htr : c.stop_loss ≤ book.bid
    · rw [if_pos htr]
      have : c.book.bid * (1 + c.callback_rate) ≤ book.bid := by
        rw [hloss] at htr; nlinarith
      exact ⟨by simp [this], by simp [hmin]⟩
    · rw [if_neg htr]
      have : ¬ c.book.bid * (1 + c.callback_rate) ≤ book.bid := by
        rw [hloss] at htr
        intro hcon
        exact htr (by nlinarith)
      exact ⟨by simp [this], by simp [hmin]⟩

/-- On a strictly falling positive bid sequence a BUY-side trailing stop
never triggers; the reference follows the latest (lowest) bid. -/
lemma trailing_run_falling :
    ∀ (books : List BookUpdateModel) (c : TrailingStop),
      c.order_side = OrderSide.BUY → 0 < c.callback_rate →
      0 < c.book.bid →
      (c.book :: books).Chain' (fun a b => b.bid < a.bid) →
      (∀ b ∈ books, 0 < b.bid ∧ 0 < b.ask) →
      (c.run books).2.all (fun t => t = false) = true := by
  intro books
  induction books with
  | nil => intro c _ _ _ _ _; rfl
  | cons b rest ih =>
      intro c hside hrate hpos hchain hbooks
      have hb := (hbooks b (by simp)).1
      have ha := (hbooks b (by simp)).2
      have hblt : b.bid < c.book.bid := (List.chain'_cons.mp hchain).1
      have hnot : ¬ (b.bid ≤ 0 ∨ b.ask ≤ 0) := by
        push_neg; exact ⟨hb, ha⟩
      have hsize : c.stop_size = c.book.bid * c.callback_rate := by
        unfold TrailingStop.stop_size; rw [hside]
      have hloss : c.stop_loss = c.book.bid + c.book.bid * c.callback_rate := by
        unfold TrailingStop.stop_loss TrailingStop.stop_size; rw [hside]
      have hlow : b.bid + c.stop_size < c.stop_loss := by
        rw [hsize, hloss]; linarith
      have hstep : c.update b = ({ c with book := b }, false) := by
        unfold TrailingStop.update
        rw [if_neg hnot, hside, if_pos hlow]
      have hrest := ih { c with book := b } hside hrate hb
        (by exact hchain.tail)
        (fun x hx => hbooks x (List.mem_cons_of_mem _ hx))
      have hpair : c.run (b :: rest) =
          ((({ c with book := b } : TrailingStop).run rest).1,
            false :: (({ c with book := b } : TrailingStop).run rest).2) := by
        simp only [TrailingStop.run, hstep]
      rw [hpair]
      simp only [List.all_cons, hrest]
      simp

/-- Claim C6 counterexample — BUY side, callback_rate 1/100 (within the
`(0, 0.02]` bound), reference book bid=ask=100; feeding the strictly
RISING positive book bid=ask=101 triggers at once, although the bid never
retraced from its peak at all.  This matches the spec's own scenario S5
and contradicts the claim that a rising-bid trajectory cannot trigger
before a `callback_rate × peak` retracement. -/
theorem trailing_stop_rising_bid_counterexample :
    ((TrailingStop.mk OrderSide.BUY (1/100) (BookUpdateModel.mk 100 100)).run
        [BookUpdateModel.mk 101 101]).2 = [true] ∧
    (0 : ℚ) < 1/100 ∧ (1 : ℚ)/100 ≤ 2/100 ∧
    (100 : ℚ) < 101 ∧ (0 : ℚ) < 100 := by
  refine ⟨?_, by norm_num, by norm_num, by norm_num, by norm_num⟩
  have h := (trailing_update_buy
    (TrailingStop.mk OrderSide.BUY (1/100) (BookUpdateModel.mk 100 100))
    (BookUpdateModel.mk 101 101) rfl (by norm_num) (by norm_num)
    (by norm_num) (by norm_num)).1.mpr (by norm_num)
  show [((TrailingStop.mk OrderSide.BUY (1/100)
      (BookUpdateModel.mk 100 100)).update (BookUpdateModel.mk 101 101)).2]
    = [true]
  rw [h]

/-- Claim C6 (amended) — for a BUY-side TrailingStop the favorable
direction is a FALLING bid: on every strictly falling positive book
sequence the stop never triggers and the reference follows the running
minimum bid; a single update triggers exactly when the bid has RISEN to
at least `(1 + callback_rate) ×` the reference (lowest observed) bid. -/
theorem trailing_stop_buy_trigger_law (c : TrailingStop)
    (book : BookUpdateModel) (books : List BookUpdateModel)
    (hside : c.order_side = OrderSide.BUY) (hrate : 0 < c.callback_rate)
    (hpos : 0 < c.book.bid) (hb : 0 < book.bid) (ha : 0 < book.ask)
    (hchain : (c.book :: books).Chain' fun a b => b.bid < a.bid)
    (hbooks : ∀ b ∈ books, 0 < b.bid ∧ 0 < b.ask) :
    ((c.update book).2 = true ↔
      c.book.bid * (1 + c.callback_rate) ≤ book.bid) ∧
    (c.update book).1.book.bid = min c.book.bid book.bid ∧
    (c.run books).2.all (fun t => t = false) = true := by
  obtain ⟨h1, h2⟩ := trailing_update_buy c book hside hrate hpos hb ha
  exact ⟨h1, h2, trailing_run_falling books c hside hrate hpos hchain hbooks⟩

/-- Concrete instance of claim C6 (amended): reference bid 100, rate
1/100; the falling sequence 99, 98 never triggers, and the single book
101 = 100 × (1 + 1/100) triggers. -/
theorem trailing_stop_buy_trigger_law_witness :
    ((TrailingStop.mk OrderSide.BUY (1/100)
        (BookUpdateModel.mk 100 100)).update (BookUpdateModel.mk 101 101)).2
      = true ∧
    ((TrailingStop.mk OrderSide.BUY (1/100)
        (BookUpdateModel.mk 100 100)).run
        [BookUpdateModel.mk 99 99, BookUpdateModel.mk 98 98]).2.all
        (fun t => t = false) = true := by
  have h := trailing_stop_buy_trigger_law
    (TrailingStop.mk OrderSide.BUY (1/100) (BookUpdateModel.mk 100 100))
    (BookUpdateModel.mk 101 101)
    [BookUpdateModel.mk 99 99, BookUpdateModel.mk 98 98]
    rfl (by norm_num) (by norm_num) (by norm_num) (by norm_num)
    (by refine List.chain'_cons.mpr ⟨by norm_num, ?_⟩
        exact List.chain'_pair.mpr (by norm_num))
    (by intro b hb
        simp only [List.mem_cons, List.not_mem_nil, or_false] at hb
        rcases hb with h | h <;> subst h <;>
          exact ⟨by norm_num, by norm_num⟩)
  refine ⟨h.1.mpr (by norm_num), h.2.2⟩

/-!  Commands and their structural hash (`modules/models/commands.py`) and
the per-symbol ordered command sets of the `CommandHandler`
(`services/bot/strategies/command_handler.py`). -/

/-- `modules/models/types.py`, `PositionSide`. -/
inductive PositionSide where
  | BOTH
  | LONG
  | SHORT
deriving DecidableEq, Repr

/-- Per-symbol trading rules (`modules/models/exchange.py`,
`ContractModel`). -/
structure ContractModel where
  symbol : String
  base_asset : String
  quote_asset : String
  price_decimals : ℤ
  quantity_decimals : ℤ
  tick_size : ℚ
  lot_size : ℚ
  min_notional : ℚ
deriving DecidableEq, Repr

/-- A Python value as it appears in a pydantic `.dict()`: leaves plus
insertion-ordered dict chains (`dnil`/`dcons`). -/
inductive PyVal where
  | pstr : String → PyVal
  | pint : ℤ → PyVal
  | pdec : ℚ → PyVal
  | pbool : Bool → PyVal
  | penum : String → PyVal
  | pnone : PyVal
  | dnil : PyVal
  | dcons : String → PyVal → PyVal → PyVal
deriving DecidableEq, Repr

/-- Stands in for Python's `str(Decimal)`.  `ℚ` abstracts the exact
decimals, so the rendering below is an injective stand-in for the decimal
digit string; no theorem below evaluates it. -/
def decStr (q : ℚ) : String :=
  toString q.num ++ "/" ++ toString q.den

/-- `Command._serialize(data)`: the inner `';'.join` of `key=value`
entries, values being `str(b)` for leaves and the recursive
parenthesised serialization for nested dicts. -/
def serInner : PyVal → String
  | .dcons k v rest =>
      (k ++ "=" ++
        (match v with
         | .dcons k2 v2 r2 => "(" ++ serInner (.dcons k2 v2 r2) ++ ")"
         | .dnil => "()"
         | .pstr s => s
         | .pint n => toString n
         | .pbool b => if b then "True" else "False"
         | .pnone => "None"
         | .pdec q => decStr q
         | .penum s => s)) ++
      (match rest with
       | .dcons k2 v2 r2 => ";" ++ serInner (.dcons k2 v2 r2)
       | _ => "")
  | _ => ""

/-- `Command._serialize` of a whole dict: `'(' + ';'.join(res) + ')'`. -/
def serializeDict (v : PyVal) : String := "(" ++ serInner v ++ ")"

/-- The tagged command variant (`modules/models/commands.py`): pydantic
models `PlaceOrder`, `TrailingStop`, `Notify`, all carrying the base
fields `contract` and `next_time`. -/
inductive Command where
  | placeOrder (contract : ContractModel) (next_time : Bool)
      (position_side : PositionSide) (order_side : OrderSide)
      (quantity : ℚ) (context : Option PyVal)
  | trailingCmd (contract : ContractModel) (next_time : Bool)
      (symbol : String) (book : BookUpdateModel) (order_side : OrderSide)
      (callback_rate : ℚ) (next_command : Command)
  | notify (contract : ContractModel) (next_time : Bool)
      (position_id : String) (order_id : ℤ) (message : String)
deriving DecidableEq, Repr

/-- Enum rendering in an f-string (`f'{a}={b}'`). -/
def positionSideStr : PositionSide → String
  | .BOTH => "PositionSide.BOTH"
  | .LONG => "PositionSide.LONG"
  | .SHORT => "PositionSide.SHORT"

/-- Enum rendering in an f-string. -/
def orderSideStr : OrderSide → String
  | .BUY => "OrderSide.BUY"
  | .SELL => "OrderSide.SELL"

/-- `ContractModel` under pydantic `.dict()`, fields in declaration
order. -/
def ContractModel.toDict (c : ContractModel) : PyVal :=
  .dcons "symbol" (.pstr c.symbol)
    (.dcons "base_asset" (.pstr c.base_asset)
      (.dcons "quote_asset" (.pstr c.quote_asset)
        (.dcons "price_decimals" (.pint c.price_decimals)
          (.dcons "quantity_decimals" (.pint c.quantity_decimals)
            (.dcons "tick_size" (.pdec c.tick_size)
              (.dcons "lot_size" (.pdec c.lot_size)
                (.dcons "min_notional" (.pdec c.min_notional) .dnil)))))))

/-- `BookUpdateModel` under pydantic `.dict()`. -/
def BookUpdateModel.toDict (b : BookUpdateModel) : PyVal :=
  .dcons "bid" (.pdec b.bid) (.dcons "ask" (.pdec b.ask) .dnil)

/-- A command under pydantic `.dict()`: base fields first, then the
subclass fields in declaration order; nested models become nested
dicts. -/
def Command.toDict : Command → PyVal
  | .placeOrder contract next_time position_side order_side quantity context =>
      .dcons "contract" contract.toDict
        (.dcons "next_time" (.pbool next_time)
          (.dcons "position_side" (.penum (positionSideStr position_side))
            (.dcons "order_side" (.penum (orderSideStr order_side))
              (.dcons "quantity" (.pdec quantity)
                (.dcons "context"
                  (match context with | none => .pnone | some d => d)
                  .dnil)))))
  | .trailingCmd contract next_time symbol book order_side callback_rate
      next_command =>
      .dcons "contract" contract.toDict
        (.dcons "next_time" (.pbool next_time)
          (.dcons "symbol" (.pstr symbol)
            (.dcons "book" book.toDict
              (.dcons "order_side" (.penum (orderSideStr order_side))
                (.dcons "callback_rate" (.pdec callback_rate)
                  (.dcons "next_command" next_command.toDict .dnil))))))
  | .notify contract next_time position_id order_id message =>
      .dcons "contract" contract.toDict
        (.dcons "next_time" (.pbool next_time)
          (.dcons "position_id" (.pstr position_id)
            (.dcons "order_id" (.pint order_id)
              (.dcons "message" (.pstr message) .dnil))))

/-- `Command.__hash__`: `hash(self._serialize(self.dict()).encode())`.
UTF-8 encoding is injective and Python's integer hash of the bytes is
abstracted by the bytes themselves, so the structural hash is the
serialization string. -/
def Command.structuralHash (c : Command) : String := serializeDict c.toDict

/-- `OrderedSet.add`: insertion-order preserving, no-op when an equal
(pydantic field-equal) element is already present. -/
def OrderedSet.add (l : List Command) (c : Command) : List Command :=
  if c ∈ l then l else l ++ [c]

/-- The per-symbol command queues `Dict[Symbol, OrderedSet[Command]]`. -/
abbrev CommandQueues := List (String × List Command)

/-- `self._commands.get(symbol, ...)` / `setdefault` lookup. -/
def lookupQueue (m : CommandQueues) (symbol : String) : List Command :=
  match m.find? (fun kv => kv.1 = symbol) with
  | some kv => kv.2
  | none => []

/-- Write a symbol's queue back (`setdefault` then mutation). -/
def setQueue (m : CommandQueues) (symbol : String) (l : List Command) :
    CommandQueues :=
  match m with
  | [] => [(symbol, l)]
  | kv :: rest =>
      if kv.1 = symbol then (symbol, l) :: rest
      else kv :: setQueue rest symbol l

/-- `command not in self._commands` tests the command against the DICT
KEYS, which are symbol strings; a pydantic `BaseModel` never equals a
`str`, so the test is always true and the duplicate-log `else` branch is
dead code. -/
def cmdEqSymbolKey (_ : Command) (_ : String) : Bool := false

/-- `CommandHandler.append(symbol, command)`: the always-true key test,
then `self._commands.setdefault(symbol, OrderedSet()).add(command)` whose
`add` ignores an element already present. -/
def CommandHandler.append (m : CommandQueues) (symbol : String)
    (command : Command) : CommandQueues :=
  if (m.map Prod.fst).any (fun s => cmdEqSymbolKey command s) then m
  else setQueue m symbol (OrderedSet.add (lookupQueue m symbol) command)

lemma lookupQueue_setQueue (m : CommandQueues) (symbol : String)
    (l : List Command) : lookupQueue (setQueue m symbol l) symbol = l := by
  induction m with
  | nil => simp [setQueue, lookupQueue, List.find?]
  | cons kv rest ih =>
      by_cases h : kv.1 = symbol
      · simp [setQueue, h, lookupQueue, List.find?]
      · simp only [setQueue, if_neg h]
        unfold lookupQueue
        rw [List.find?_cons_of_neg _ (by simpa using h)]
        exact ih

lemma append_queue (m : CommandQueues) (symbol : String) (c : Command) :
    lookupQueue (CommandHandler.append m symbol c) symbol =
      OrderedSet.add (lookupQueue m symbol) c := by
  unfold CommandHandler.append
  rw [if_neg (by simp [cmdEqSymbolKey])]
  exact lookupQueue_setQueue m symbol _

/-- Claim C8 (amended) — `append` deduplicates by structural (pydantic
field) EQUALITY, not by the serialization hash: enqueueing a command
equal to one already enqueued leaves the symbol's queue length
unchanged. -/
theorem command_append_dedup_equal (m : CommandQueues) (symbol : String)
    (c : Command) :
    (lookupQueue (CommandHandler.append
        (CommandHandler.append m symbol c) symbol c) symbol).length =
      (lookupQueue (CommandHandler.append m symbol c) symbol).length := by
  rw [append_queue, append_queue]
  have hmem : c ∈ OrderedSet.add (lookupQueue m symbol) c := by
    unfold OrderedSet.add
    split
    · assumption
    · simp
  generalize h : OrderedSet.add (lookupQueue m symbol) c = t at hmem ⊢
  unfold OrderedSet.add
  rw [if_pos hmem]

/-- Claim C8 counterexample — the serialization behind `Command.__hash__`
is not injective: the contexts `{a: "1;b=2"}` and `{a: "1", b: "2"}` both
serialize to `(a=1;b=2)`, so two UNEQUAL PlaceOrder commands share the
structural hash; enqueueing the second after the first GROWS the queue
from 1 to 2 (`OrderedSet` deduplicates by pydantic equality, and Python
keeps both members of one hash bucket when they are unequal). -/
theorem command_append_hash_collision_counterexample :
    (Command.placeOrder ⟨"BTCUSDT", "BTC", "USDT", 2, 3, 1, 1, 5⟩ false
        PositionSide.LONG OrderSide.BUY 1
        (some (.dcons "a" (.pstr "1;b=2") .dnil))).structuralHash =
      (Command.placeOrder ⟨"BTCUSDT", "BTC", "USDT", 2, 3, 1, 1, 5⟩ false
        PositionSide.LONG OrderSide.BUY 1
        (some (.dcons "a" (.pstr "1")
          (.dcons "b" (.pstr "2") .dnil)))).structuralHash ∧
    (Command.placeOrder ⟨"BTCUSDT", "BTC", "USDT", 2, 3, 1, 1, 5⟩ false
        PositionSide.LONG OrderSide.BUY 1
        (some (.dcons "a" (.pstr "1;b=2") .dnil))) ≠
      (Command.placeOrder ⟨"BTCUSDT", "BTC", "USDT", 2, 3, 1, 1, 5⟩ false
        PositionSide.LONG OrderSide.BUY 1
        (some (.dcons "a" (.pstr "1") (.dcons "b" (.pstr "2") .dnil)))) ∧
    (lookupQueue (CommandHandler.append [] "BTCUSDT"
        (Command.placeOrder ⟨"BTCUSDT", "BTC", "USDT", 2, 3, 1, 1, 5⟩ false
          PositionSide.LONG OrderSide.BUY 1
          (some (.dcons "a" (.pstr "1;b=2") .dnil)))) "BTCUSDT").length
      = 1 ∧
    (lookupQueue (CommandHandler.append (CommandHandler.append [] "BTCUSDT"
        (Command.placeOrder ⟨"BTCUSDT", "BTC", "USDT", 2, 3, 1, 1, 5⟩ false
          PositionSide.LONG OrderSide.BUY 1
          (some (.dcons "a" (.pstr "1;b=2") .dnil)))) "BTCUSDT"
        (Command.placeOrder ⟨"BTCUSDT", "BTC", "USDT", 2, 3, 1, 1, 5⟩ false
          PositionSide.LONG OrderSide.BUY 1
          (some (.dcons "a" (.pstr "1")
            (.dcons "b" (.pstr "2") .dnil))))) "BTCUSDT").length = 2 := by
  refine ⟨?_, by decide, by decide, by decide⟩
  simp [Command.structuralHash, serializeDict, Command.toDict,
    ContractModel.toDict, serInner]

/-!  Orders, positions, `LocalStorage`
(`services/bot/strategies/storage.py`, `modules/models/exchange.py`,
`modules/models/strategy.py`) and the order-update path of the
`CommandHandler` (`services/bot/strategies/command_handler.py`). -/

/-- `modules/models/types.py`, `OrderStatus`. -/
inductive OrderStatus where
  | NEW
  | PARTIALLY_FILLED
  | FILLED
  | CANCELED
  | REJECTED
  | EXPIRED
deriving DecidableEq, Repr

/-- `modules/models/types.py`, `PositionStatus`. -/
inductive PositionStatus where
  | OPEN
  | CLOSED
deriving DecidableEq, Repr

/-- `modules/models/exchange.py`, `OrderModel`; fields that never enter
the embedded paths (`type`, `context`, `timestamp`) are omitted. -/
structure OrderModel where
  id : ℤ
  client_order_id : String
  position_id : Option String
  symbol : String
  status : OrderStatus
  side : OrderSide
  position_side : PositionSide
  quantity : ℚ
  entry_price : ℚ
deriving DecidableEq, Repr

/-- `OrderModel.is_filled`. -/
def OrderModel.is_filled (o : OrderModel) : Bool :=
  o.status = OrderStatus.FILLED

/-- `OrderModel.is_processed`: the source tuple lists FILLED, CANCELED,
REJECTED and CANCELED again — EXPIRED is absent (a separate slip,
embedded faithfully). -/
def OrderModel.is_processed (o : OrderModel) : Bool :=
  o.status = OrderStatus.FILLED || o.status = OrderStatus.CANCELED ||
  o.status = OrderStatus.REJECTED || o.status = OrderStatus.CANCELED

/-- `modules/models/strategy.py`, `PositionModel`; `strategy_id`,
`create_timestamp` and `update_timestamp` are bookkeeping never read by
the embedded paths and are omitted. -/
structure PositionModel where
  id : String
  symbol : String
  side : PositionSide
  status : PositionStatus
  quantity : ℚ
  total_quantity : ℚ
  entry_price : ℚ
  exit_price : ℚ
  orders : List ℤ
deriving DecidableEq, Repr

/-- `PositionModel.get_entry_order_side`. -/
def PositionModel.get_entry_order_side (p : PositionModel) : OrderSide :=
  if p.side = PositionSide.LONG then OrderSide.BUY else OrderSide.SELL

/-- `PositionModel.get_exit_order_side`. -/
def PositionModel.get_exit_order_side (p : PositionModel) : OrderSide :=
  if p.side = PositionSide.LONG then OrderSide.SELL else OrderSide.BUY

/-- Entry side for a position side (LONG enters with BUY, else SELL). -/
def entrySideOf (ps : PositionSide) : OrderSide :=
  if ps = PositionSide.LONG then OrderSide.BUY else OrderSide.SELL

/-- Exit side for a position side. -/
def exitSideOf (ps : PositionSide) : OrderSide :=
  if ps = PositionSide.LONG then OrderSide.SELL else OrderSide.BUY

/-- Insertion-ordered dict write: overwrite in place or append. -/
def setA {α β : Type} [DecidableEq α] : List (α × β) → α → β → List (α × β)
  | [], k, v => [(k, v)]
  | kv :: rest, k, v =>
      if kv.1 = k then (k, v) :: rest else kv :: setA rest k v

/-- Insertion-ordered dict read (`.get(k)`). -/
def getA {α β : Type} [DecidableEq α] (m : List (α × β)) (k : α) :
    Option β :=
  (m.find? fun kv => kv.1 = k).map Prod.snd

/-- Insertion-ordered dict delete (`.pop(k, None)` / `del`). -/
def removeA {α β : Type} [DecidableEq α] : List (α × β) → α → List (α × β)
  | [], _ => []
  | kv :: rest, k => if kv.1 = k then rest else kv :: removeA rest k

/-- `LocalStorage` (`services/bot/strategies/storage.py`): the two nested
dicts `Dict[Symbol, Dict[PositionSide, PositionModel]]` and
`Dict[Symbol, Dict[OrderId, OrderModel]]` are flattened to
insertion-ordered association lists over pair keys. -/
structure LocalStorage where
  positions : List ((String × PositionSide) × PositionModel)
  orders : List ((String × ℤ) × OrderModel)
deriving DecidableEq, Repr

/-- `LocalStorage.add_position`. -/
def LocalStorage.add_position (st : LocalStorage) (p : PositionModel) :
    LocalStorage :=
  { st with positions := setA st.positions (p.symbol, p.side) p }

/-- `LocalStorage.drop_position`. -/
def LocalStorage.drop_position (st : LocalStorage) (symbol : String)
    (position_side : PositionSide) : LocalStorage :=
  { st with positions := removeA st.positions (symbol, position_side) }

/-- `LocalStorage.get_position`. -/
def LocalStorage.get_position (st : LocalStorage) (symbol : String)
    (position_side : PositionSide) : Option PositionModel :=
  getA st.positions (symbol, position_side)

/-- `LocalStorage.get_orders(symbol, position_id, order_side)`: the
symbol's orders in insertion order, kept when `position_id` matches and,
when a side is given, the side matches. -/
def LocalStorage.get_orders (st : LocalStorage) (symbol : String)
    (position_id : String) (order_side : Option OrderSide) :
    List OrderModel :=
  ((st.orders.filter fun kv => decide (kv.1.1 = symbol)).map Prod.snd).filter
    fun o => decide (o.position_id = some position_id) &&
      (match order_side with
       | none => true
       | some s => decide (o.side = s))

/-- `LocalStorage.add_order`. -/
def LocalStorage.add_order (st : LocalStorage) (o : OrderModel) :
    LocalStorage :=
  { st with orders := setA st.orders (o.symbol, o.id) o }

/-- `LocalStorage.drop_orders(symbol, position_id)`: rebuild the symbol's
dict keeping orders of other positions; other symbols untouched. -/
def LocalStorage.drop_orders (st : LocalStorage) (symbol : String)
    (position_id : String) : LocalStorage :=
  { st with orders := st.orders.filter fun kv =>
      !(decide (kv.1.1 = symbol) &&
        decide (kv.2.position_id = some position_id)) }

/-- The `CommandHandler` state touched by `update_order`: the owned
symbols, the `waiting` map `client_order_id → PlaceOrder` (a PLAIN dict,
`command_handler.py` line 41), and the `LocalStorage`.  The durable
store is an external collaborator: with the fresh order ids assumed
below, `db.count` is 0 and `db.create`/`db.update`/`partial_update` echo
the written record, so they do not appear in the local state. -/
structure HandlerState where
  symbols : List String
  waiting : List (String × Command)
  storage : LocalStorage
deriving DecidableEq, Repr

/-- What a single `update_order` call did. -/
inductive UpdateOutcome where
  | ignored_symbol
  | ignored_unknown
  | handled (position : Option PositionModel)
deriving DecidableEq, Repr

/-- `CommandHandler._create_position(symbol, position_side)`; the fresh
`uuid4().hex` is passed in as `genId`. -/
def createPosition (genId : String) (symbol : String)
    (position_side : PositionSide) : PositionModel :=
  { id := genId
    symbol := symbol
    side := position_side
    status := PositionStatus.OPEN
    quantity := 0
    total_quantity := 0
    entry_price := 0
    exit_price := 0
    orders := [] }

/-- `CommandHandler._update_position(position, order)`.  The Python
object is aliased by the storage, so the in-place field mutations are
rendered by writing the updated position back (or dropping it with its
orders once closed).  `ℚ` division by a zero total is never reached
under the positive-fill hypotheses used below. -/
def updatePosition (storage : LocalStorage) (position : PositionModel)
    (order : OrderModel) : LocalStorage × PositionModel :=
  let entry_side := position.get_entry_order_side
  let exit_side := position.get_exit_order_side
  let p1 : PositionModel :=
    if order.side = entry_side then
      let entry_orders :=
        storage.get_orders position.symbol position.id (some entry_side)
      let total_price :=
        (entry_orders.map fun o => o.quantity * o.entry_price).sum
      let total_quantity := (entry_orders.map fun o => o.quantity).sum
      { position with
        entry_price := total_price / total_quantity
        quantity := position.quantity + order.quantity
        total_quantity := position.total_quantity + order.quantity }
    else
      let exit_orders :=
        storage.get_orders position.symbol position.id (some exit_side)
      let total_price :=
        (exit_orders.map fun o => o.quantity * o.entry_price).sum
      let total_quantity := (exit_orders.map fun o => o.quantity).sum
      { position with
        exit_price := total_price / total_quantity
        quantity := position.quantity - order.quantity
        status :=
          if position.quantity - order.quantity = 0
          then PositionStatus.CLOSED else position.status }
  let p2 := { p1 with orders := p1.orders ++ [order.id] }
  if p2.status = PositionStatus.CLOSED then
    ((storage.drop_position position.symbol position.side).drop_orders
        position.symbol position.id, p2)
  else
    (storage.add_position p2, p2)

/-- `CommandHandler.update_order(order)` — the idempotent persistence
path shared by the user stream and `handle_place_order`.  Bails when the
symbol is not owned or the `client_order_id` is unknown; on a fill looks
up / creates the Position, attaches `position_id`, stores the order and
updates the Position; on a processed status discards the waiting
entry. -/
def CommandHandler.update_order (st : HandlerState) (genId : String)
    (order : OrderModel) : HandlerState × UpdateOutcome :=
  if ¬ order.symbol ∈ st.symbols then (st, .ignored_symbol)
  else if (getA st.waiting order.client_order_id).isNone then
    (st, .ignored_unknown)
  else
    let afterFill :
        LocalStorage × Option PositionModel :=
      if order.is_filled then
        let resolved :
            LocalStorage × PositionModel :=
          match st.storage.get_position order.symbol order.position_side with
          | some p => (st.storage, p)
          | none =>
              let p := createPosition genId order.symbol order.position_side
              (st.storage.add_position p, p)
        let order1 := { order with position_id := some resolved.2.id }
        let storage2 := resolved.1.add_order order1
        let upd := updatePosition storage2 resolved.2 order1
        (upd.1, some upd.2)
      else (st.storage, none)
    let waiting1 :=
      if order.is_processed then removeA st.waiting order.client_order_id
      else st.waiting
    ({ st with storage := afterFill.1, waiting := waiting1 },
     .handled afterFill.2)

/-- The passage of wall-clock time over the `waiting` map.  The source
keeps `_waiting` in a plain `dict`; no timer, TTL wheel or expiring map
exists anywhere in the repository, so elapsed time changes nothing. -/
def waitingAfterElapse (w : List (String × Command)) (_ms : ℕ) :
    List (String × Command) :=
  w

/-- Claim C3 counterexample — a waiting entry inserted 31 s ago is still
present (nothing in the code expires it), and an order update carrying
its `client_order_id` that arrives then is handled, not ignored: here a
CANCELED reply is processed and the entry is removed by the
`is_processed` branch, not by any TTL. -/
theorem waiting_no_ttl_counterexample :
    waitingAfterElapse [("cid1", Command.placeOrder
        ⟨"BTCUSDT", "BTC", "USDT", 2, 3, 1, 1, 5⟩ false PositionSide.LONG
        OrderSide.BUY 1 none)] 31000
      = [("cid1", Command.placeOrder
        ⟨"BTCUSDT", "BTC", "USDT", 2, 3, 1, 1, 5⟩ false PositionSide.LONG
        OrderSide.BUY 1 none)] ∧
    (CommandHandler.update_order
        ⟨["BTCUSDT"], [("cid1", Command.placeOrder
          ⟨"BTCUSDT", "BTC", "USDT", 2, 3, 1, 1, 5⟩ false PositionSide.LONG
          OrderSide.BUY 1 none)], ⟨[], []⟩⟩ "p1"
        ⟨7, "cid1", none, "BTCUSDT", OrderStatus.CANCELED, OrderSide.BUY,
          PositionSide.LONG, 1, 0⟩).2 = UpdateOutcome.handled none ∧
    (CommandHandler.update_order
        ⟨["BTCUSDT"], [("cid1", Command.placeOrder
          ⟨"BTCUSDT", "BTC", "USDT", 2, 3, 1, 1, 5⟩ false PositionSide.LONG
          OrderSide.BUY 1 none)], ⟨[], []⟩⟩ "p1"
        ⟨7, "cid1", none, "BTCUSDT", OrderStatus.CANCELED, OrderSide.BUY,
          PositionSide.LONG, 1, 0⟩).2 ≠ UpdateOutcome.ignored_unknown ∧
    (CommandHandler.update_order
        ⟨["BTCUSDT"], [("cid1", Command.placeOrder
          ⟨"BTCUSDT", "BTC", "USDT", 2, 3, 1, 1, 5⟩ false PositionSide.LONG
          OrderSide.BUY 1 none)], ⟨[], []⟩⟩ "p1"
        ⟨7, "cid1", none, "BTCUSDT", OrderStatus.CANCELED, OrderSide.BUY,
          PositionSide.LONG, 1, 0⟩).1.waiting = [] := by
  decide

/-- Claim C3 (amended) — `waiting` entries never auto-expire: elapsed
time leaves `update_order` unaffected; an update is ignored as unknown
exactly when its `client_order_id` is not in `waiting` (with the symbol
owned), and a waiting entry is removed exactly when an accepted update
reaches an `is_processed` status (FILLED, CANCELED or REJECTED — the
source omits EXPIRED from `is_processed`). -/
theorem waiting_entries_persist (st : HandlerState) (ms : ℕ)
    (genId : String) (order : OrderModel) :
    CommandHandler.update_order
        { st with waiting := waitingAfterElapse st.waiting ms } genId order
      = CommandHandler.update_order st genId order ∧
    ((CommandHandler.update_order st genId order).2 =
        UpdateOutcome.ignored_unknown ↔
      order.symbol ∈ st.symbols ∧
        getA st.waiting order.client_order_id = none) ∧
    ((CommandHandler.update_order st genId order).1.waiting =
      if order.symbol ∈ st.symbols ∧
          (getA st.waiting order.client_order_id).isSome ∧
          order.is_processed = true
      then removeA st.waiting order.client_order_id
      else st.waiting) := by
  refine ⟨rfl, ?_, ?_⟩
  · unfold CommandHandler.update_order
    by_cases hsym : order.symbol ∈ st.symbols
    · rw [if_neg (by simpa using hsym)]
      by_cases hcid : (getA st.waiting order.client_order_id).isNone
      · rw [if_pos hcid]
        simp [hsym, Option.isNone_iff_eq_none.mp hcid]
      · rw [if_neg hcid]
        simp only [Option.isNone_iff_eq_none] at hcid
        simp [hsym, hcid]
    · rw [if_pos (by simpa using hsym)]
      simp [hsym]
  · unfold CommandHandler.update_order
    by_cases hsym : order.symbol ∈ st.symbols
    · rw [if_neg (by simpa using hsym)]
      by_cases hcid : (getA st.waiting order.client_order_id).isNone
      · rw [if_pos hcid]
        have : ¬ (getA st.waiting order.client_order_id).isSome := by
          simp [Option.isNone_iff_eq_none.mp hcid]
        simp [hsym, this]
      · rw [if_neg hcid]
        have hsome : (getA st.waiting order.client_order_id).isSome := by
          simpa [Option.isNone_iff_eq_none, Option.isSome_iff_ne_none]
            using hcid
        by_cases hproc : order.is_processed = true
        · simp [hsym, hsome, hproc]
        · simp [hsym, hsome, hproc]
    · rw [if_pos (by simpa using hsym)]
      simp [hsym]

/-- Quantity sum of one side's fills recorded for a position. -/
def fillSum (s : LocalStorage) (symbol position_id : String)
    (side : OrderSide) : ℚ :=
  ((s.get_orders symbol position_id (some side)).map fun o => o.quantity).sum

/-- The per-position bookkeeping invariant maintained by the
order-update path for the position at `(sym, ps)`: a stored position is
OPEN with positive quantity equal to its recorded entry fills minus exit
fills, every stored order belongs to it, and a closed position leaves
nothing behind. -/
def GoodState (st : HandlerState) (sym : String) (ps : PositionSide) :
    Prop :=
  (∀ p, st.storage.get_position sym ps = some p →
    st.storage.positions = [((sym, ps), p)] ∧
    p.symbol = sym ∧ p.side = ps ∧
    p.status = PositionStatus.OPEN ∧
    0 < p.quantity ∧
    p.quantity = fillSum st.storage sym p.id (entrySideOf ps) -
      fillSum st.storage sym p.id (exitSideOf ps) ∧
    (∀ kv ∈ st.storage.orders, kv.1.1 = sym ∧ kv.2.symbol = sym ∧
      kv.1.2 = kv.2.id ∧ kv.2.position_id = some p.id)) ∧
  (st.storage.get_position sym ps = none →
    st.storage.positions = [] ∧ st.storage.orders = [])

lemma setA_eq_append {α β : Type} [DecidableEq α]
    (m : List (α × β)) (k : α) (v : β) (h : ∀ kv ∈ m, kv.1 ≠ k) :
    setA m k v = m ++ [(k, v)] := by
  induction m with
  | nil => rfl
  | cons kv rest ih =>
      unfold setA
      rw [if_neg (h kv (by simp))]
      simp only [List.cons_append, List.cons.injEq, true_and]
      exact ih fun x hx => h x (by simp [hx])

lemma getA_setA_self {α β : Type} [DecidableEq α]
    (m : List (α × β)) (k : α) (v : β) :
    getA (setA m k v) k = some v := by
  induction m with
  | nil => simp [setA, getA, List.find?]
  | cons kv rest ih =>
      by_cases h : kv.1 = k
      · simp [setA, h, getA, List.find?]
      · unfold setA
        rw [if_neg h]
        unfold getA
        rw [List.find?_cons_of_neg _ (by simpa using h)]
        exact ih

lemma get_orders_append (P : List ((String × PositionSide) × PositionModel))
    (O : List ((String × ℤ) × OrderModel)) (kv : (String × ℤ) × OrderModel)
    (symbol pid : String) (side : OrderSide) :
    LocalStorage.get_orders ⟨P, O ++ [kv]⟩ symbol pid (some side) =
      LocalStorage.get_orders ⟨P, O⟩ symbol pid (some side) ++
        (if kv.1.1 = symbol ∧ kv.2.position_id = some pid ∧
            kv.2.side = side then [kv.2] else []) := by
  unfold LocalStorage.get_orders
  simp only [List.filter_append, List.map_append]
  congr 1
  by_cases h1 : kv.1.1 = symbol
  · by_cases h2 : kv.2.position_id = some pid
    · by_cases h3 : kv.2.side = side
      · rw [if_pos ⟨h1, h2, h3⟩]
        simp [h1, h2, h3]
      · rw [if_neg (by tauto)]
        simp [h1, h2, h3]
    · rw [if_neg (by tauto)]
      by_cases h3 : kv.2.side = side <;> simp [h1, h2, h3]
  · rw [if_neg (by tauto)]
    simp [h1]

lemma fillSum_append (P : List ((String × PositionSide) × PositionModel))
    (O : List ((String × ℤ) × OrderModel)) (kv : (String × ℤ) × OrderModel)
    (symbol pid : String) (side : OrderSide) :
    fillSum ⟨P, O ++ [kv]⟩ symbol pid side =
      fillSum ⟨P, O⟩ symbol pid side +
        (if kv.1.1 = symbol ∧ kv.2.position_id = some pid ∧
            kv.2.side = side then kv.2.quantity else 0) := by
  unfold fillSum
  rw [get_orders_append]
  rw [List.map_append, List.sum_append]
  congr 1
  split <;> simp

/-- `get_orders` and `fillSum` read only the orders dict. -/
lemma fillSum_positions_irrel
    (P Q : List ((String × PositionSide) × PositionModel))
    (O : List ((String × ℤ) × OrderModel)) (symbol pid : String)
    (side : OrderSide) :
    fillSum ⟨P, O⟩ symbol pid side = fillSum ⟨Q, O⟩ symbol pid side := rfl


lemma fillSum_eq_of_orders (s s2 : LocalStorage) (h : s.orders = s2.orders)
    (symbol pid : String) (side : OrderSide) :
    fillSum s symbol pid side = fillSum s2 symbol pid side := by
  unfold fillSum LocalStorage.get_orders
  rw [h]

lemma add_order_orders_append (s : LocalStorage) (o : OrderModel)
    (h : ∀ kv ∈ s.orders, kv.1 ≠ (o.symbol, o.id)) :
    (s.add_order o).orders = s.orders ++ [((o.symbol, o.id), o)] := by
  unfold LocalStorage.add_order
  exact setA_eq_append _ _ _ h

lemma add_position_positions_single (s : LocalStorage)
    (key : String × PositionSide) (pOld pNew : PositionModel)
    (hs : s.positions = [(key, pOld)])
    (hk : (pNew.symbol, pNew.side) = key) :
    (s.add_position pNew).positions = [(key, pNew)] := by
  unfold LocalStorage.add_position
  simp only [hs, hk]
  simp [setA]

lemma add_position_positions_nil (s : LocalStorage) (pNew : PositionModel)
    (hs : s.positions = []) :
    (s.add_position pNew).positions = [((pNew.symbol, pNew.side), pNew)] := by
  unfold LocalStorage.add_position
  simp only [hs]
  simp [setA]

lemma get_position_single (s : LocalStorage) (sym : String)
    (ps : PositionSide) (p : PositionModel)
    (hs : s.positions = [((sym, ps), p)]) :
    s.get_position sym ps = some p := by
  unfold LocalStorage.get_position getA
  rw [hs]
  simp [List.find?]

lemma removeA_single {α β : Type} [DecidableEq α] (k : α) (v : β) :
    removeA [(k, v)] k = [] := by
  simp [removeA]

lemma updatePosition_entry (storage : LocalStorage) (p : PositionModel)
    (o : OrderModel) (h : o.side = p.get_entry_order_side)
    (hstat : p.status = PositionStatus.OPEN) :
    updatePosition storage p o =
      (storage.add_position
        { p with
          entry_price := ((storage.get_orders p.symbol p.id
              (some p.get_entry_order_side)).map
                fun o2 => o2.quantity * o2.entry_price).sum /
            ((storage.get_orders p.symbol p.id
              (some p.get_entry_order_side)).map fun o2 => o2.quantity).sum
          quantity := p.quantity + o.quantity
          total_quantity := p.total_quantity + o.quantity
          orders := p.orders ++ [o.id] },
       { p with
          entry_price := ((storage.get_orders p.symbol p.id
              (some p.get_entry_order_side)).map
                fun o2 => o2.quantity * o2.entry_price).sum /
            ((storage.get_orders p.symbol p.id
              (some p.get_entry_order_side)).map fun o2 => o2.quantity).sum
          quantity := p.quantity + o.quantity
          total_quantity := p.total_quantity + o.quantity
          orders := p.orders ++ [o.id] }) := by
  simp only [updatePosition]
  rw [if_pos h, if_neg (by simp [hstat])]

lemma updatePosition_exit_closed (storage : LocalStorage)
    (p : PositionModel) (o : OrderModel)
    (h : ¬ o.side = p.get_entry_order_side)
    (hz : p.quantity - o.quantity = 0) :
    updatePosition storage p o =
      ((storage.drop_position p.symbol p.side).drop_orders p.symbol p.id,
       { p with
          exit_price := ((storage.get_orders p.symbol p.id
              (some p.get_exit_order_side)).map
                fun o2 => o2.quantity * o2.entry_price).sum /
            ((storage.get_orders p.symbol p.id
              (some p.get_exit_order_side)).map fun o2 => o2.quantity).sum
          quantity := p.quantity - o.quantity
          status := PositionStatus.CLOSED
          orders := p.orders ++ [o.id] }) := by
  simp only [updatePosition]
  rw [if_neg h, if_pos hz, if_pos rfl]

lemma updatePosition_exit_open (storage : LocalStorage)
    (p : PositionModel) (o : OrderModel)
    (h : ¬ o.side = p.get_entry_order_side)
    (hstat : p.status = PositionStatus.OPEN)
    (hnz : ¬ p.quantity - o.quantity = 0) :
    updatePosition storage p o =
      (storage.add_position
        { p with
          exit_price := ((storage.get_orders p.symbol p.id
              (some p.get_exit_order_side)).map
                fun o2 => o2.quantity * o2.entry_price).sum /
            ((storage.get_orders p.symbol p.id
              (some p.get_exit_order_side)).map fun o2 => o2.quantity).sum
          quantity := p.quantity - o.quantity
          orders := p.orders ++ [o.id] },
       { p with
          exit_price := ((storage.get_orders p.symbol p.id
              (some p.get_exit_order_side)).map
                fun o2 => o2.quantity * o2.entry_price).sum /
            ((storage.get_orders p.symbol p.id
              (some p.get_exit_order_side)).map fun o2 => o2.quantity).sum
          quantity := p.quantity - o.quantity
          orders := p.orders ++ [o.id] }) := by
  simp only [updatePosition]
  rw [if_neg h, if_neg hnz, if_neg (by simp [hstat])]


/-- Claim C2 — one accepted FILLED order processed by
`CommandHandler.update_order` preserves the position-accounting
invariant `GoodState` for its `(symbol, position_side)`: after the fill
the affected Position's quantity equals its accumulated entry-fill
quantities minus exit-fill quantities, it is CLOSED exactly when that
quantity is zero, and at zero both the position and all its orders are
gone from `LocalStorage` (otherwise the updated position is stored).
Induction over a fill sequence is carried by `GoodState`. -/
theorem position_accounting_step
    (st : HandlerState) (sym : String) (ps : PositionSide)
    (genId : String) (order : OrderModel)
    (hgood : GoodState st sym ps)
    (hsym : order.symbol = sym)
    (hps : order.position_side = ps)
    (hfill : order.status = OrderStatus.FILLED)
    (hq : 0 < order.quantity)
    (howned : sym ∈ st.symbols)
    (hwait : (getA st.waiting order.client_order_id).isSome = true)
    (hfresh : ∀ kv ∈ st.storage.orders, kv.1.2 ≠ order.id)
    (hexit : order.side = exitSideOf ps →
      ∃ p, st.storage.get_position sym ps = some p ∧
        order.quantity ≤ p.quantity) :
    ∃ p,
      (CommandHandler.update_order st genId order).2 =
        UpdateOutcome.handled (some p) ∧
      GoodState (CommandHandler.update_order st genId order).1 sym ps ∧
      (p.status = PositionStatus.CLOSED ↔ p.quantity = 0) ∧
      p.quantity =
        (fillSum st.storage sym p.id (entrySideOf ps) +
          (if order.side = entrySideOf ps then order.quantity else 0)) -
        (fillSum st.storage sym p.id (exitSideOf ps) +
          (if order.side = exitSideOf ps then order.quantity else 0)) ∧
      (p.quantity = 0 →
        (CommandHandler.update_order st genId order).1.storage.positions
          = [] ∧
        (CommandHandler.update_order st genId order).1.storage.orders
          = []) ∧
      (p.quantity ≠ 0 →
        (CommandHandler.update_order st genId
            order).1.storage.get_position sym ps = some p) := by
  subst hsym
  subst hps
  have hfill2 : order.is_filled = true := by
    simp [OrderModel.is_filled, hfill]
  have hproc2 : order.is_processed = true := by
    simp [OrderModel.is_processed, hfill]
  have hguard1 : ¬ ¬ order.symbol ∈ st.symbols := not_not_intro howned
  have hguard2 : ¬ ((getA st.waiting order.client_order_id).isNone = true) := by
    rw [Option.isNone_iff_eq_none]
    exact Option.isSome_iff_ne_none.mp hwait
  have hside_ne : entrySideOf order.position_side ≠
      exitSideOf order.position_side := by
    cases order.position_side <;> decide
  have hsides : order.side = entrySideOf order.position_side ∨
      order.side = exitSideOf order.position_side := by
    cases h1 : order.side <;> cases h2 : order.position_side <;>
      simp [entrySideOf, exitSideOf]
  cases hpos : st.storage.get_position order.symbol order.position_side with
  | some p =>
      obtain ⟨hposs, hpsym, hpside, hstat, hqpos, hacct, hords⟩ :=
        hgood.1 p hpos
      have hkeys : ∀ kv ∈ st.storage.orders,
          kv.1 ≠ (order.symbol, order.id) := by
        intro kv hkv hcon
        exact hfresh kv hkv (congrArg Prod.snd hcon)
      have heq : CommandHandler.update_order st genId order =
          ({ st with
              storage := (updatePosition
                (st.storage.add_order
                  { order with position_id := some p.id }) p
                { order with position_id := some p.id }).1
              waiting := removeA st.waiting order.client_order_id },
            UpdateOutcome.handled (some (updatePosition
              (st.storage.add_order
                { order with position_id := some p.id }) p
              { order with position_id := some p.id }).2)) := by
        unfold CommandHandler.update_order
        rw [if_neg hguard1, if_neg hguard2]
        simp only [hfill2, if_true, hpos, hproc2, if_pos]
      have hentryside : p.get_entry_order_side =
          entrySideOf order.position_side := by
        unfold PositionModel.get_entry_order_side entrySideOf
        rw [hpside]
      have hexitside : p.get_exit_order_side =
          exitSideOf order.position_side := by
        unfold PositionModel.get_exit_order_side exitSideOf
        rw [hpside]
      have horders2 : (st.storage.add_order
          { order with position_id := some p.id }).orders =
          st.storage.orders ++
            [((order.symbol, order.id),
              { order with position_id := some p.id })] :=
        add_order_orders_append st.storage _ hkeys
      rcases hsides with horder | horder
      · -- entry fill on an existing position
        have hne2 : ¬ order.side = exitSideOf order.position_side :=
          fun hcon => hside_ne (horder.symm.trans hcon)
        have hsideE : ({ order with position_id := some p.id } :
            OrderModel).side = p.get_entry_order_side := by
          show order.side = p.get_entry_order_side
          rw [hentryside]
          exact horder
        rw [heq, updatePosition_entry _ _ _ hsideE hstat]
        simp only
        have hpositions3 : ((st.storage.add_order
            { order with position_id := some p.id }).add_position
              _).positions =
            [((order.symbol, order.position_side),
              { p with
              entry_price := (((st.storage.add_order
                  { order with position_id := some p.id }).get_orders
                    p.symbol p.id (some p.get_entry_order_side)).map
                  fun o2 => o2.quantity * o2.entry_price).sum /
                (((st.storage.add_order
                  { order with position_id := some p.id }).get_orders
                    p.symbol p.id (some p.get_entry_order_side)).map
                  fun o2 => o2.quantity).sum
              quantity := p.quantity + order.quantity
              total_quantity := p.total_quantity + order.quantity
              orders := p.orders ++ [order.id] })] :=
          add_position_positions_single _ _ p _ hposs
            (by show (p.symbol, p.side) = _; rw [hpsym, hpside])
        have hget3 := get_position_single _ _ _ _ hpositions3
        have horders3 : ((st.storage.add_order
            { order with position_id := some p.id }).add_position
            { p with
              entry_price := (((st.storage.add_order
                  { order with position_id := some p.id }).get_orders
                    p.symbol p.id (some p.get_entry_order_side)).map
                  fun o2 => o2.quantity * o2.entry_price).sum /
                (((st.storage.add_order
                  { order with position_id := some p.id }).get_orders
                    p.symbol p.id (some p.get_entry_order_side)).map
                  fun o2 => o2.quantity).sum
              quantity := p.quantity + order.quantity
              total_quantity := p.total_quantity + order.quantity
              orders := p.orders ++ [order.id] }).orders =
            st.storage.orders ++
              [((order.symbol, order.id),
                { order with position_id := some p.id })] := horders2
        have hfE : fillSum ((st.storage.add_order
            { order with position_id := some p.id }).add_position
            { p with
              entry_price := (((st.storage.add_order
                  { order with position_id := some p.id }).get_orders
                    p.symbol p.id (some p.get_entry_order_side)).map
                  fun o2 => o2.quantity * o2.entry_price).sum /
                (((st.storage.add_order
                  { order with position_id := some p.id }).get_orders
                    p.symbol p.id (some p.get_entry_order_side)).map
                  fun o2 => o2.quantity).sum
              quantity := p.quantity + order.quantity
              total_quantity := p.total_quantity + order.quantity
              orders := p.orders ++ [order.id] })
            order.symbol p.id (entrySideOf order.position_side) =
            fillSum st.storage order.symbol p.id
              (entrySideOf order.position_side) + order.quantity := by
          rw [fillSum_eq_of_orders _
            ⟨st.storage.positions, st.storage.orders ++
              [((order.symbol, order.id),
                { order with position_id := some p.id })]⟩ horders3,
            fillSum_append,
            fillSum_eq_of_orders
              ⟨st.storage.positions, st.storage.orders⟩ st.storage rfl,
            if_pos ⟨rfl, rfl, horder⟩]
        have hfX : fillSum ((st.storage.add_order
            { order with position_id := some p.id }).add_position
            { p with
              entry_price := (((st.storage.add_order
                  { order with position_id := some p.id }).get_orders
                    p.symbol p.id (some p.get_entry_order_side)).map
                  fun o2 => o2.quantity * o2.entry_price).sum /
                (((st.storage.add_order
                  { order with position_id := some p.id }).get_orders
                    p.symbol p.id (some p.get_entry_order_side)).map
                  fun o2 => o2.quantity).sum
              quantity := p.quantity + order.quantity
              total_quantity := p.total_quantity + order.quantity
              orders := p.orders ++ [order.id] })
            order.symbol p.id (exitSideOf order.position_side) =
            fillSum st.storage order.symbol p.id
              (exitSideOf order.position_side) := by
          rw [fillSum_eq_of_orders _
            ⟨st.storage.positions, st.storage.orders ++
              [((order.symbol, order.id),
                { order with position_id := some p.id })]⟩ horders3,
            fillSum_append,
            fillSum_eq_of_orders
              ⟨st.storage.positions, st.storage.orders⟩ st.storage rfl,
            if_neg (fun hcon => hne2 hcon.2.2)]
          ring
        refine ⟨_, rfl, ⟨?_, ?_⟩, ?_, ?_, ?_, ?_⟩
        · intro p2 hp2
          rw [hget3] at hp2
          obtain rfl : _ = p2 := Option.some.inj hp2
          refine ⟨hpositions3, hpsym, hpside, hstat, ?_, ?_, ?_⟩
          · show 0 < p.quantity + order.quantity
            linarith
          · show p.quantity + order.quantity = _
            rw [hfE, hfX, hacct]
            ring
          · intro kv hkv
            rw [horders3] at hkv
            rcases List.mem_append.mp hkv with hold | hnew
            · exact hords kv hold
            · simp only [List.mem_singleton] at hnew
              subst hnew
              exact ⟨rfl, rfl, rfl, rfl⟩
        · intro hnone
          rw [hget3] at hnone
          cases hnone
        · constructor
          · intro hcl
            rw [show ({ p with
              entry_price := (((st.storage.add_order
                  { order with position_id := some p.id }).get_orders
                    p.symbol p.id (some p.get_entry_order_side)).map
                  fun o2 => o2.quantity * o2.entry_price).sum /
                (((st.storage.add_order
                  { order with position_id := some p.id }).get_orders
                    p.symbol p.id (some p.get_entry_order_side)).map
                  fun o2 => o2.quantity).sum
              quantity := p.quantity + order.quantity
              total_quantity := p.total_quantity + order.quantity
              orders := p.orders ++ [order.id] } :
              PositionModel).status = p.status from rfl, hstat] at hcl
            cases hcl
          · intro hz
            exfalso
            rw [show ({ p with
              entry_price := (((st.storage.add_order
                  { order with position_id := some p.id }).get_orders
                    p.symbol p.id (some p.get_entry_order_side)).map
                  fun o2 => o2.quantity * o2.entry_price).sum /
                (((st.storage.add_order
                  { order with position_id := some p.id }).get_orders
                    p.symbol p.id (some p.get_entry_order_side)).map
                  fun o2 => o2.quantity).sum
              quantity := p.quantity + order.quantity
              total_quantity := p.total_quantity + order.quantity
              orders := p.orders ++ [order.id] } :
              PositionModel).quantity = p.quantity + order.quantity
              from rfl] at hz
            linarith
        · show p.quantity + order.quantity = _
          rw [if_pos horder, if_neg hne2, hacct]
          ring
        · intro hz
          exfalso
          rw [show ({ p with
              entry_price := (((st.storage.add_order
                  { order with position_id := some p.id }).get_orders
                    p.symbol p.id (some p.get_entry_order_side)).map
                  fun o2 => o2.quantity * o2.entry_price).sum /
                (((st.storage.add_order
                  { order with position_id := some p.id }).get_orders
                    p.symbol p.id (some p.get_entry_order_side)).map
                  fun o2 => o2.quantity).sum
              quantity := p.quantity + order.quantity
              total_quantity := p.total_quantity + order.quantity
              orders := p.orders ++ [order.id] } :
            PositionModel).quantity = p.quantity + order.quantity
            from rfl] at hz
          linarith
        · intro _
          exact hget3
      · -- exit fill on an existing position
        obtain ⟨pw, hpw, hle⟩ := hexit horder
        rw [hpos] at hpw
        obtain rfl : p = pw := Option.some.inj hpw
        have hne2X : ¬ order.side = entrySideOf order.position_side :=
          fun hcon => hside_ne (hcon.symm.trans horder)
        have hsideX : ¬ ({ order with position_id := some p.id } :
            OrderModel).side = p.get_entry_order_side := by
          show ¬ order.side = p.get_entry_order_side
          rw [hentryside]
          exact hne2X
        by_cases hz : p.quantity - order.quantity = 0
        · -- the exit closes the position
          rw [heq, updatePosition_exit_closed _ _ _ hsideX hz]
          simp only
          have hpositions3 : (((st.storage.add_order
              { order with position_id := some p.id }).drop_position
                p.symbol p.side).drop_orders p.symbol p.id).positions
              = [] := by
            unfold LocalStorage.drop_orders LocalStorage.drop_position
            simp only
            rw [show (st.storage.add_order
              { order with position_id := some p.id }).positions =
              st.storage.positions from rfl, hposs, hpsym, hpside]
            exact removeA_single _ _
          have horders_nil : (((st.storage.add_order
              { order with position_id := some p.id }).drop_position
                p.symbol p.side).drop_orders p.symbol p.id).orders
              = [] := by
            unfold LocalStorage.drop_orders
            simp only
            rw [show ((st.storage.add_order
              { order with position_id := some p.id }).drop_position
                p.symbol p.side).orders = (st.storage.add_order
              { order with position_id := some p.id }).orders from rfl,
              horders2]
            apply List.filter_eq_nil_iff.mpr
            intro a ha
            rcases List.mem_append.mp ha with hold | hnew
            · obtain ⟨h1, _, _, h4⟩ := hords a hold
              simp [h1, h4, hpsym]
            · simp only [List.mem_singleton] at hnew
              subst hnew
              simp [hpsym]
          have hget3 : (((st.storage.add_order
              { order with position_id := some p.id }).drop_position
                p.symbol p.side).drop_orders p.symbol
                p.id).get_position order.symbol order.position_side
              = none := by
            unfold LocalStorage.get_position getA
            rw [hpositions3]
            rfl
          refine ⟨_, rfl, ⟨?_, ?_⟩, ?_, ?_, ?_, ?_⟩
          · intro p2 hp2
            rw [hget3] at hp2
            cases hp2
          · intro _
            exact ⟨hpositions3, horders_nil⟩
          · exact ⟨fun _ => hz, fun _ => rfl⟩
          · show p.quantity - order.quantity = _
            rw [if_neg hne2X, if_pos horder, hacct]
            ring
          · intro _
            exact ⟨hpositions3, horders_nil⟩
          · intro hnzq
            exact absurd hz hnzq
        · -- the exit leaves a positive remainder
          rw [heq, updatePosition_exit_open _ _ _ hsideX hstat hz]
          simp only
          have hpositions3 : ((st.storage.add_order
              { order with position_id := some p.id }).add_position
                _).positions =
              [((order.symbol, order.position_side), { p with
              exit_price := (((st.storage.add_order
                  { order with position_id := some p.id }).get_orders
                    p.symbol p.id (some p.get_exit_order_side)).map
                  fun o2 => o2.quantity * o2.entry_price).sum /
                (((st.storage.add_order
                  { order with position_id := some p.id }).get_orders
                    p.symbol p.id (some p.get_exit_order_side)).map
                  fun o2 => o2.quantity).sum
              quantity := p.quantity - order.quantity
              orders := p.orders ++ [order.id] })] :=
            add_position_positions_single _ _ p _ hposs
              (by show (p.symbol, p.side) = _; rw [hpsym, hpside])
          have hget3 := get_position_single _ _ _ _ hpositions3
          have horders3 : ((st.storage.add_order
              { order with position_id := some p.id }).add_position
              { p with
              exit_price := (((st.storage.add_order
                  { order with position_id := some p.id }).get_orders
                    p.symbol p.id (some p.get_exit_order_side)).map
                  fun o2 => o2.quantity * o2.entry_price).sum /
                (((st.storage.add_order
                  { order with position_id := some p.id }).get_orders
                    p.symbol p.id (some p.get_exit_order_side)).map
                  fun o2 => o2.quantity).sum
              quantity := p.quantity - order.quantity
              orders := p.orders ++ [order.id] }).orders =
              st.storage.orders ++
                [((order.symbol, order.id),
                  { order with position_id := some p.id })] := horders2
          have hfE : fillSum ((st.storage.add_order
              { order with position_id := some p.id }).add_position
              { p with
              exit_price := (((st.storage.add_order
                  { order with position_id := some p.id }).get_orders
                    p.symbol p.id (some p.get_exit_order_side)).map
                  fun o2 => o2.quantity * o2.entry_price).sum /
                (((st.storage.add_order
                  { order with position_id := some p.id }).get_orders
                    p.symbol p.id (some p.get_exit_order_side)).map
                  fun o2 => o2.quantity).sum
              quantity := p.quantity - order.quantity
              orders := p.orders ++ [order.id] })
              order.symbol p.id (entrySideOf order.position_side) =
              fillSum st.storage order.symbol p.id
                (entrySideOf order.position_side) := by
            rw [fillSum_eq_of_orders _
              ⟨st.storage.positions, st.storage.orders ++
                [((order.symbol, order.id),
                  { order with position_id := some p.id })]⟩ horders3,
              fillSum_append,
              fillSum_eq_of_orders
                ⟨st.storage.positions, st.storage.orders⟩ st.storage rfl,
              if_neg (fun hcon => hne2X hcon.2.2)]
            ring
          have hfX : fillSum ((st.storage.add_order
              { order with position_id := some p.id }).add_position
              { p with
              exit_price := (((st.storage.add_order
                  { order with position_id := some p.id }).get_orders
                    p.symbol p.id (some p.get_exit_order_side)).map
                  fun o2 => o2.quantity * o2.entry_price).sum /
                (((st.storage.add_order
                  { order with position_id := some p.id }).get_orders
                    p.symbol p.id (some p.get_exit_order_side)).map
                  fun o2 => o2.quantity).sum
              quantity := p.quantity - order.quantity
              orders := p.orders ++ [order.id] })
              order.symbol p.id (exitSideOf order.position_side) =
              fillSum st.storage order.symbol p.id
                (exitSideOf order.position_side) + order.quantity := by
            rw [fillSum_eq_of_orders _
              ⟨st.storage.positions, st.storage.orders ++
                [((order.symbol, order.id),
                  { order with position_id := some p.id })]⟩ horders3,
              fillSum_append,
              fillSum_eq_of_orders
                ⟨st.storage.positions, st.storage.orders⟩ st.storage rfl,
              if_pos ⟨rfl, rfl, horder⟩]
          have hqpos3 : (0 : ℚ) < p.quantity - order.quantity :=
            lt_of_le_of_ne (by linarith) (Ne.symm hz)
          refine ⟨_, rfl, ⟨?_, ?_⟩, ?_, ?_, ?_, ?_⟩
          · intro p2 hp2
            rw [hget3] at hp2
            obtain rfl : _ = p2 := Option.some.inj hp2
            refine ⟨hpositions3, hpsym, hpside, hstat, hqpos3, ?_, ?_⟩
            · show p.quantity - order.quantity = _
              rw [hfE, hfX, hacct]
              ring
            · intro kv hkv
              rw [horders3] at hkv
              rcases List.mem_append.mp hkv with hold | hnew
              · exact hords kv hold
              · simp only [List.mem_singleton] at hnew
                subst hnew
                exact ⟨rfl, rfl, rfl, rfl⟩
          · intro hnone
            rw [hget3] at hnone
            cases hnone
          · constructor
            · intro hcl
              rw [show ({ p with
              exit_price := (((st.storage.add_order
                  { order with position_id := some p.id }).get_orders
                    p.symbol p.id (some p.get_exit_order_side)).map
                  fun o2 => o2.quantity * o2.entry_price).sum /
                (((st.storage.add_order
                  { order with position_id := some p.id }).get_orders
                    p.symbol p.id (some p.get_exit_order_side)).map
                  fun o2 => o2.quantity).sum
              quantity := p.quantity - order.quantity
              orders := p.orders ++ [order.id] } :
                PositionModel).status = p.status from rfl, hstat] at hcl
              cases hcl
            · intro hzq
              exact absurd hzq hz
          · show p.quantity - order.quantity = _
            rw [if_neg hne2X, if_pos horder, hacct]
            ring
          · intro hzq
            exact absurd hzq hz
          · intro _
            exact hget3
  | none =>
      obtain ⟨hposs0, hords0⟩ := hgood.2 hpos
      have heq : CommandHandler.update_order st genId order =
          ({ st with
              storage := (updatePosition ((st.storage.add_position (createPosition genId order.symbol order.position_side)).add_order { order with position_id := some (createPosition genId order.symbol order.position_side).id }) (createPosition genId order.symbol order.position_side) { order with position_id := some (createPosition genId order.symbol order.position_side).id }).1
              waiting := removeA st.waiting order.client_order_id },
            UpdateOutcome.handled
              (some (updatePosition ((st.storage.add_position (createPosition genId order.symbol order.position_side)).add_order { order with position_id := some (createPosition genId order.symbol order.position_side).id }) (createPosition genId order.symbol order.position_side) { order with position_id := some (createPosition genId order.symbol order.position_side).id }).2)) := by
        unfold CommandHandler.update_order
        rw [if_neg hguard1, if_neg hguard2]
        simp only [hfill2, if_true, hpos, hproc2, if_pos]
      rcases hsides with horder | horder
      · -- entry fill that opens a fresh position
        have hsideE : ({ order with position_id := some (createPosition genId order.symbol order.position_side).id } : OrderModel).side =
            (createPosition genId order.symbol order.position_side).get_entry_order_side := by
          show order.side = _
          exact horder
        have hstat0 : ((createPosition genId order.symbol order.position_side)).status = PositionStatus.OPEN := rfl
        rw [heq, updatePosition_entry _ _ _ hsideE hstat0]
        simp only
        have hkeys0 : ∀ kv ∈ (st.storage.add_position (createPosition genId order.symbol order.position_side)).orders,
            kv.1 ≠ (({ order with position_id := some (createPosition genId order.symbol order.position_side).id } : OrderModel).symbol,
              ({ order with position_id := some (createPosition genId order.symbol order.position_side).id } : OrderModel).id) := by
          rw [show (st.storage.add_position (createPosition genId order.symbol order.position_side)).orders =
            st.storage.orders from rfl, hords0]
          intro kv hkv
          cases hkv
        have horders3 : (((st.storage.add_position (createPosition genId order.symbol order.position_side)).add_order { order with position_id := some (createPosition genId order.symbol order.position_side).id }).add_position { createPosition genId order.symbol order.position_side with entry_price := (((((st.storage.add_position (createPosition genId order.symbol order.position_side)).add_order { order with position_id := some (createPosition genId order.symbol order.position_side).id }).get_orders (createPosition genId order.symbol order.position_side).symbol (createPosition genId order.symbol order.position_side).id (some (createPosition genId order.symbol order.position_side).get_entry_order_side)).map fun o2 => o2.quantity * o2.entry_price).sum) / (((((st.storage.add_position (createPosition genId order.symbol order.position_side)).add_order { order with position_id := some (createPosition genId order.symbol order.position_side).id }).get_orders (createPosition genId order.symbol order.position_side).symbol (createPosition genId order.symbol order.position_side).id (some (createPosition genId order.symbol order.position_side).get_entry_order_side)).map fun o2 => o2.quantity).sum), quantity := (createPosition genId order.symbol order.position_side).quantity + order.quantity, total_quantity := (createPosition genId order.symbol order.position_side).total_quantity + order.quantity, orders := (createPosition genId order.symbol order.position_side).orders ++ [order.id] }).orders =
            [((order.symbol, order.id), { order with position_id := some (createPosition genId order.symbol order.position_side).id })] := by
          rw [show (((st.storage.add_position (createPosition genId order.symbol order.position_side)).add_order { order with position_id := some (createPosition genId order.symbol order.position_side).id }).add_position { createPosition genId order.symbol order.position_side with entry_price := (((((st.storage.add_position (createPosition genId order.symbol order.position_side)).add_order { order with position_id := some (createPosition genId order.symbol order.position_side).id }).get_orders (createPosition genId order.symbol order.position_side).symbol (createPosition genId order.symbol order.position_side).id (some (createPosition genId order.symbol order.position_side).get_entry_order_side)).map fun o2 => o2.quantity * o2.entry_price).sum) / (((((st.storage.add_position (createPosition genId order.symbol order.position_side)).add_order { order with position_id := some (createPosition genId order.symbol order.position_side).id }).get_orders (createPosition genId order.symbol order.position_side).symbol (createPosition genId order.symbol order.position_side).id (some (createPosition genId order.symbol order.position_side).get_entry_order_side)).map fun o2 => o2.quantity).sum), quantity := (createPosition genId order.symbol order.position_side).quantity + order.quantity, total_quantity := (createPosition genId order.symbol order.position_side).total_quantity + order.quantity, orders := (createPosition genId order.symbol order.position_side).orders ++ [order.id] }).orders =
            ((st.storage.add_position (createPosition genId order.symbol order.position_side)).add_order { order with position_id := some (createPosition genId order.symbol order.position_side).id }).orders from rfl,
            add_order_orders_append _ _ hkeys0,
            show (st.storage.add_position (createPosition genId order.symbol order.position_side)).orders =
              st.storage.orders from rfl, hords0]
          rfl
        have hpositions2 : (st.storage.add_position (createPosition genId order.symbol order.position_side)).positions =
            [((order.symbol, order.position_side), (createPosition genId order.symbol order.position_side))] :=
          add_position_positions_nil _ _ hposs0
        have hpositions3 : (((st.storage.add_position (createPosition genId order.symbol order.position_side)).add_order { order with position_id := some (createPosition genId order.symbol order.position_side).id }).add_position { createPosition genId order.symbol order.position_side with entry_price := (((((st.storage.add_position (createPosition genId order.symbol order.position_side)).add_order { order with position_id := some (createPosition genId order.symbol order.position_side).id }).get_orders (createPosition genId order.symbol order.position_side).symbol (createPosition genId order.symbol order.position_side).id (some (createPosition genId order.symbol order.position_side).get_entry_order_side)).map fun o2 => o2.quantity * o2.entry_price).sum) / (((((st.storage.add_position (createPosition genId order.symbol order.position_side)).add_order { order with position_id := some (createPosition genId order.symbol order.position_side).id }).get_orders (createPosition genId order.symbol order.position_side).symbol (createPosition genId order.symbol order.position_side).id (some (createPosition genId order.symbol order.position_side).get_entry_order_side)).map fun o2 => o2.quantity).sum), quantity := (createPosition genId order.symbol order.position_side).quantity + order.quantity, total_quantity := (createPosition genId order.symbol order.position_side).total_quantity + order.quantity, orders := (createPosition genId order.symbol order.position_side).orders ++ [order.id] }).positions =
            [((order.symbol, order.position_side), { createPosition genId order.symbol order.position_side with entry_price := (((((st.storage.add_position (createPosition genId order.symbol order.position_side)).add_order { order with position_id := some (createPosition genId order.symbol order.position_side).id }).get_orders (createPosition genId order.symbol order.position_side).symbol (createPosition genId order.symbol order.position_side).id (some (createPosition genId order.symbol order.position_side).get_entry_order_side)).map fun o2 => o2.quantity * o2.entry_price).sum) / (((((st.storage.add_position (createPosition genId order.symbol order.position_side)).add_order { order with position_id := some (createPosition genId order.symbol order.position_side).id }).get_orders (createPosition genId order.symbol order.position_side).symbol (createPosition genId order.symbol order.position_side).id (some (createPosition genId order.symbol order.position_side).get_entry_order_side)).map fun o2 => o2.quantity).sum), quantity := (createPosition genId order.symbol order.position_side).quantity + order.quantity, total_quantity := (createPosition genId order.symbol order.position_side).total_quantity + order.quantity, orders := (createPosition genId order.symbol order.position_side).orders ++ [order.id] })] :=
          add_position_positions_single _ _ (createPosition genId order.symbol order.position_side) _
            (by exact hpositions2) rfl
        have hget3 := get_position_single _ _ _ _ hpositions3
        have hf0 : ∀ side, fillSum st.storage order.symbol
            ((createPosition genId order.symbol order.position_side)).id side = 0 := by
          intro side
          rw [fillSum_eq_of_orders st.storage ⟨[], []⟩ (by rw [hords0])]
          rfl
        have hne2 : ¬ order.side = exitSideOf order.position_side :=
          fun hcon => hside_ne (horder.symm.trans hcon)
        have hfE : fillSum (((st.storage.add_position (createPosition genId order.symbol order.position_side)).add_order { order with position_id := some (createPosition genId order.symbol order.position_side).id }).add_position { createPosition genId order.symbol order.position_side with entry_price := (((((st.storage.add_position (createPosition genId order.symbol order.position_side)).add_order { order with position_id := some (createPosition genId order.symbol order.position_side).id }).get_orders (createPosition genId order.symbol order.position_side).symbol (createPosition genId order.symbol order.position_side).id (some (createPosition genId order.symbol order.position_side).get_entry_order_side)).map fun o2 => o2.quantity * o2.entry_price).sum) / (((((st.storage.add_position (createPosition genId order.symbol order.position_side)).add_order { order with position_id := some (createPosition genId order.symbol order.position_side).id }).get_orders (createPosition genId order.symbol order.position_side).symbol (createPosition genId order.symbol order.position_side).id (some (createPosition genId order.symbol order.position_side).get_entry_order_side)).map fun o2 => o2.quantity).sum), quantity := (createPosition genId order.symbol order.position_side).quantity + order.quantity, total_quantity := (createPosition genId order.symbol order.position_side).total_quantity + order.quantity, orders := (createPosition genId order.symbol order.position_side).orders ++ [order.id] })
            order.symbol ((createPosition genId order.symbol order.position_side)).id (entrySideOf order.position_side) =
            order.quantity := by
          rw [fillSum_eq_of_orders _
            ⟨st.storage.positions,
              [] ++ [((order.symbol, order.id), { order with position_id := some (createPosition genId order.symbol order.position_side).id })]⟩
            (by rw [horders3]; rfl),
            fillSum_append,
            if_pos ⟨rfl, rfl, horder⟩]
          have hbase : fillSum ⟨st.storage.positions, []⟩ order.symbol
              ((createPosition genId order.symbol order.position_side)).id (entrySideOf order.position_side) = 0 := rfl
          rw [hbase]
          ring
        have hfX : fillSum (((st.storage.add_position (createPosition genId order.symbol order.position_side)).add_order { order with position_id := some (createPosition genId order.symbol order.position_side).id }).add_position { createPosition genId order.symbol order.position_side with entry_price := (((((st.storage.add_position (createPosition genId order.symbol order.position_side)).add_order { order with position_id := some (createPosition genId order.symbol order.position_side).id }).get_orders (createPosition genId order.symbol order.position_side).symbol (createPosition genId order.symbol order.position_side).id (some (createPosition genId order.symbol order.position_side).get_entry_order_side)).map fun o2 => o2.quantity * o2.entry_price).sum) / (((((st.storage.add_position (createPosition genId order.symbol order.position_side)).add_order { order with position_id := some (createPosition genId order.symbol order.position_side).id }).get_orders (createPosition genId order.symbol order.position_side).symbol (createPosition genId order.symbol order.position_side).id (some (createPosition genId order.symbol order.position_side).get_entry_order_side)).map fun o2 => o2.quantity).sum), quantity := (createPosition genId order.symbol order.position_side).quantity + order.quantity, total_quantity := (createPosition genId order.symbol order.position_side).total_quantity + order.quantity, orders := (createPosition genId order.symbol order.position_side).orders ++ [order.id] })
            order.symbol ((createPosition genId order.symbol order.position_side)).id (exitSideOf order.position_side) =
            0 := by
          rw [fillSum_eq_of_orders _
            ⟨st.storage.positions,
              [] ++ [((order.symbol, order.id), { order with position_id := some (createPosition genId order.symbol order.position_side).id })]⟩
            (by rw [horders3]; rfl),
            fillSum_append,
            if_neg (fun hcon => hne2 hcon.2.2)]
          have hbase : fillSum ⟨st.storage.positions, []⟩ order.symbol
              ((createPosition genId order.symbol order.position_side)).id (exitSideOf order.position_side) = 0 := rfl
          rw [hbase]
          ring
        refine ⟨_, rfl, ⟨?_, ?_⟩, ?_, ?_, ?_, ?_⟩
        · intro p2 hp2
          rw [hget3] at hp2
          obtain rfl : _ = p2 := Option.some.inj hp2
          refine ⟨hpositions3, rfl, rfl, rfl, ?_, ?_, ?_⟩
          · show (0 : ℚ) < 0 + order.quantity
            linarith
          · show (0 : ℚ) + order.quantity = _
            rw [hfE, hfX]
            ring
          · intro kv hkv
            rw [horders3] at hkv
            simp only [List.mem_singleton] at hkv
            subst hkv
            exact ⟨rfl, rfl, rfl, rfl⟩
        · intro hnone
          rw [hget3] at hnone
          cases hnone
        · constructor
          · intro hcl
            cases hcl
          · intro hzq
            exfalso
            rw [show ({ createPosition genId order.symbol order.position_side with entry_price := (((((st.storage.add_position (createPosition genId order.symbol order.position_side)).add_order { order with position_id := some (createPosition genId order.symbol order.position_side).id }).get_orders (createPosition genId order.symbol order.position_side).symbol (createPosition genId order.symbol order.position_side).id (some (createPosition genId order.symbol order.position_side).get_entry_order_side)).map fun o2 => o2.quantity * o2.entry_price).sum) / (((((st.storage.add_position (createPosition genId order.symbol order.position_side)).add_order { order with position_id := some (createPosition genId order.symbol order.position_side).id }).get_orders (createPosition genId order.symbol order.position_side).symbol (createPosition genId order.symbol order.position_side).id (some (createPosition genId order.symbol order.position_side).get_entry_order_side)).map fun o2 => o2.quantity).sum), quantity := (createPosition genId order.symbol order.position_side).quantity + order.quantity, total_quantity := (createPosition genId order.symbol order.position_side).total_quantity + order.quantity, orders := (createPosition genId order.symbol order.position_side).orders ++ [order.id] } : PositionModel).quantity =
              0 + order.quantity from rfl] at hzq
            linarith
        · show (0 : ℚ) + order.quantity = _
          rw [if_pos horder, if_neg hne2,
            show ({ createPosition genId order.symbol order.position_side with entry_price := (((((st.storage.add_position (createPosition genId order.symbol order.position_side)).add_order { order with position_id := some (createPosition genId order.symbol order.position_side).id }).get_orders (createPosition genId order.symbol order.position_side).symbol (createPosition genId order.symbol order.position_side).id (some (createPosition genId order.symbol order.position_side).get_entry_order_side)).map fun o2 => o2.quantity * o2.entry_price).sum) / (((((st.storage.add_position (createPosition genId order.symbol order.position_side)).add_order { order with position_id := some (createPosition genId order.symbol order.position_side).id }).get_orders (createPosition genId order.symbol order.position_side).symbol (createPosition genId order.symbol order.position_side).id (some (createPosition genId order.symbol order.position_side).get_entry_order_side)).map fun o2 => o2.quantity).sum), quantity := (createPosition genId order.symbol order.position_side).quantity + order.quantity, total_quantity := (createPosition genId order.symbol order.position_side).total_quantity + order.quantity, orders := (createPosition genId order.symbol order.position_side).orders ++ [order.id] } : PositionModel).id = genId from rfl,
            show fillSum st.storage order.symbol genId
              (entrySideOf order.position_side) = 0 from
              hf0 (entrySideOf order.position_side),
            show fillSum st.storage order.symbol genId
              (exitSideOf order.position_side) = 0 from
              hf0 (exitSideOf order.position_side)]
          ring
        · intro hzq
          exfalso
          rw [show ({ createPosition genId order.symbol order.position_side with entry_price := (((((st.storage.add_position (createPosition genId order.symbol order.position_side)).add_order { order with position_id := some (createPosition genId order.symbol order.position_side).id }).get_orders (createPosition genId order.symbol order.position_side).symbol (createPosition genId order.symbol order.position_side).id (some (createPosition genId order.symbol order.position_side).get_entry_order_side)).map fun o2 => o2.quantity * o2.entry_price).sum) / (((((st.storage.add_position (createPosition genId order.symbol order.position_side)).add_order { order with position_id := some (createPosition genId order.symbol order.position_side).id }).get_orders (createPosition genId order.symbol order.position_side).symbol (createPosition genId order.symbol order.position_side).id (some (createPosition genId order.symbol order.position_side).get_entry_order_side)).map fun o2 => o2.quantity).sum), quantity := (createPosition genId order.symbol order.position_side).quantity + order.quantity, total_quantity := (createPosition genId order.symbol order.position_side).total_quantity + order.quantity, orders := (createPosition genId order.symbol order.position_side).orders ++ [order.id] } : PositionModel).quantity =
            0 + order.quantity from rfl] at hzq
          linarith
        · intro _
          exact hget3
      · -- an exit fill with no position contradicts the premise
        obtain ⟨pw, hpw, _⟩ := hexit horder
        rw [hpos] at hpw
        cases hpw

/-- Concrete instance of claim C2: an accepted entry fill of quantity 2
on a fresh LONG position. -/
theorem position_accounting_step_witness :
    GoodState
      ⟨["BTCUSDT"], [("cid1", Command.placeOrder
        ⟨"BTCUSDT", "BTC", "USDT", 2, 3, 1, 1, 5⟩ false PositionSide.LONG
        OrderSide.BUY 2 none)], ⟨[], []⟩⟩ "BTCUSDT" PositionSide.LONG ∧
    ∃ p,
      (CommandHandler.update_order
        ⟨["BTCUSDT"], [("cid1", Command.placeOrder
          ⟨"BTCUSDT", "BTC", "USDT", 2, 3, 1, 1, 5⟩ false PositionSide.LONG
          OrderSide.BUY 2 none)], ⟨[], []⟩⟩ "pid1"
        ⟨7, "cid1", none, "BTCUSDT", OrderStatus.FILLED, OrderSide.BUY,
          PositionSide.LONG, 2, 100⟩).2 =
        UpdateOutcome.handled (some p) ∧
      GoodState
        (CommandHandler.update_order
          ⟨["BTCUSDT"], [("cid1", Command.placeOrder
            ⟨"BTCUSDT", "BTC", "USDT", 2, 3, 1, 1, 5⟩ false
            PositionSide.LONG OrderSide.BUY 2 none)], ⟨[], []⟩⟩ "pid1"
          ⟨7, "cid1", none, "BTCUSDT", OrderStatus.FILLED, OrderSide.BUY,
            PositionSide.LONG, 2, 100⟩).1 "BTCUSDT" PositionSide.LONG ∧
      (p.status = PositionStatus.CLOSED ↔ p.quantity = 0) ∧
      p.quantity =
        (fillSum (⟨[], []⟩ : LocalStorage) "BTCUSDT" p.id
            (entrySideOf PositionSide.LONG) +
          (if (OrderSide.BUY : OrderSide) = entrySideOf PositionSide.LONG
            then (2 : ℚ) else 0)) -
        (fillSum (⟨[], []⟩ : LocalStorage) "BTCUSDT" p.id
            (exitSideOf PositionSide.LONG) +
          (if (OrderSide.BUY : OrderSide) = exitSideOf PositionSide.LONG
            then (2 : ℚ) else 0)) := by
  have hgood : GoodState
      ⟨["BTCUSDT"], [("cid1", Command.placeOrder
        ⟨"BTCUSDT", "BTC", "USDT", 2, 3, 1, 1, 5⟩ false PositionSide.LONG
        OrderSide.BUY 2 none)], ⟨[], []⟩⟩ "BTCUSDT" PositionSide.LONG := by
    constructor
    · intro p hp
      rw [show (⟨["BTCUSDT"], [("cid1", Command.placeOrder
        ⟨"BTCUSDT", "BTC", "USDT", 2, 3, 1, 1, 5⟩ false PositionSide.LONG
        OrderSide.BUY 2 none)], ⟨[], []⟩⟩ :
        HandlerState).storage.get_position "BTCUSDT" PositionSide.LONG
        = none from rfl] at hp
      cases hp
    · intro _
      exact ⟨rfl, rfl⟩
  obtain ⟨p, h1, h2, h3, h4, _, _⟩ := position_accounting_step
    ⟨["BTCUSDT"], [("cid1", Command.placeOrder
      ⟨"BTCUSDT", "BTC", "USDT", 2, 3, 1, 1, 5⟩ false PositionSide.LONG
      OrderSide.BUY 2 none)], ⟨[], []⟩⟩ "BTCUSDT" PositionSide.LONG "pid1"
    ⟨7, "cid1", none, "BTCUSDT", OrderStatus.FILLED, OrderSide.BUY,
      PositionSide.LONG, 2, 100⟩ hgood rfl rfl rfl (by norm_num)
    (by decide) (by decide) (by intro kv hkv; exact (List.not_mem_nil kv hkv).elim)
    (by intro h; exact absurd h (by decide))
  exact ⟨hgood, p, h1, h2, h3, h4⟩

/-!  Startup reconciliation (`services/bot/strategies/strategy.py`,
`Strategy._set_positions`).  The durable-store query results
(`db.find(PositionModel, ...)` filtered on the strategy's symbols, id
and OPEN status, and the later order fetch) and the venue account
positions arrive as inputs; `state.get_contract(symbol).lot_size` is the
`lot` function.  The per-symbol `change_leverage` call and the order
fetch are external I/O, taken to succeed.  The loop body ends in
`self.storage.set_snapshot(symbol, actual_positions, orders)` — a method
the `LocalStorage` imported by `strategy.py`
(`services/bot/strategies/storage.py`) does not define — so a symbol
that PASSES the count check raises `AttributeError` right there, before
any later symbol is examined. -/

/-- `modules/models/exchange.py`, `AccountPositionModel` (venue-side
position); `isolated` and `margin` are not read here. -/
structure AccountPositionModel where
  symbol : String
  side : PositionSide
  quantity : ℚ
  entry_price : ℚ
deriving DecidableEq, Repr

/-- Python's builtin `round`: round half to even. -/
def roundHalfEven (q : ℚ) : ℤ :=
  let f := ⌊q⌋
  let r := q - f
  if r < 1/2 then f
  else if 1/2 < r then f + 1
  else if f % 2 = 0 then f else f + 1

/-- `helpers.to_decimal_places(d, places) = round(d / places) * places`. -/
def to_decimal_places (d decimal_places : ℚ) : ℚ :=
  roundHalfEven (d / decimal_places) * decimal_places

/-- The nested dict `db_positions[symbol][side]` built by overwriting in
list order: the LAST matching store position wins. -/
def lastDbPosition (db : List PositionModel) (symbol : String)
    (side : PositionSide) : Option PositionModel :=
  (db.filter fun p =>
    decide (p.symbol = symbol) && decide (p.side = side)).getLast?

/-- The nested dict `acc_positions[symbol][side]`, last-wins. -/
def lastAccPosition (positions : List AccountPositionModel)
    (symbol : String) (side : PositionSide) :
    Option AccountPositionModel :=
  (positions.filter fun p =>
    decide (p.symbol = symbol) && decide (p.side = side)).getLast?

/-- `cur_positions`: venue positions of the symbol with quantity > 0. -/
def curPositionsFor (positions : List AccountPositionModel)
    (symbol : String) : List AccountPositionModel :=
  positions.filter fun p =>
    decide (p.symbol = symbol) && decide (0 < p.quantity)

/-- `actual_positions`: for each side present in BOTH maps, the store
position is reconciled iff the lot-rounded entry prices match and the
quantities match.  The Python `set` intersection is iterated here in the
fixed side order BOTH, LONG, SHORT (only membership affects anything
observable). -/
def actualPositionsFor (db : List PositionModel)
    (positions : List AccountPositionModel) (lot_size : ℚ)
    (symbol : String) : List PositionModel :=
  [PositionSide.BOTH, PositionSide.LONG, PositionSide.SHORT].filterMap
    fun side =>
      match lastDbPosition db symbol side,
          lastAccPosition positions symbol side with
      | some dbp, some accp =>
          if to_decimal_places dbp.entry_price lot_size =
              to_decimal_places accp.entry_price lot_size ∧
              dbp.quantity = accp.quantity
          then some dbp else none
      | _, _ => none

/-- The order fetch: store orders whose id lies in the union of the
reconciled positions' `orders` lists. -/
def ordersFor (ordersDb : List OrderModel)
    (actual : List PositionModel) : List OrderModel :=
  ordersDb.filter fun o =>
    decide (o.id ∈ actual.flatMap fun p => p.orders)

/-- The two exceptions `Strategy._set_positions` can raise. -/
inductive PyError where
  | runtimeError (msg : String)
  | attributeError (msg : String)
deriving DecidableEq, Repr

/-- The per-symbol loop of `Strategy._set_positions`: on a count
mismatch it raises `RuntimeError(f'Unknown position found! symbol=...')`;
otherwise it fetches the orders and reaches
`self.storage.set_snapshot(symbol, actual_positions, orders)`
(strategy.py line 483), a method the imported `LocalStorage` does not
define, and raises `AttributeError` there.  Either way the loop never
finishes its first iteration; only an empty symbol list returns. -/
def setPositionsGo (lot : String → ℚ) (db : List PositionModel)
    (positions : List AccountPositionModel)
    (ordersDb : List OrderModel) : List String → Except PyError Unit
  | [] => .ok ()
  | symbol :: _rest =>
      let actual := actualPositionsFor db positions (lot symbol) symbol
      let cur := curPositionsFor positions symbol
      if actual.length ≠ cur.length then
        .error (.runtimeError ("Unknown position found! symbol=" ++ symbol))
      else
        let _orders := ordersFor ordersDb actual
        .error (.attributeError
          "LocalStorage object has no attribute set_snapshot")

/-- Unfolding lemma: the first iteration of the `_set_positions` loop. -/
theorem setPositionsGo_cons (lot : String → ℚ) (db : List PositionModel)
    (positions : List AccountPositionModel) (ordersDb : List OrderModel)
    (symbol : String) (rest : List String) :
    setPositionsGo lot db positions ordersDb (symbol :: rest) =
      if (actualPositionsFor db positions (lot symbol) symbol).length ≠
          (curPositionsFor positions symbol).length then
        Except.error (PyError.runtimeError
          ("Unknown position found! symbol=" ++ symbol))
      else
        Except.error (PyError.attributeError
          "LocalStorage object has no attribute set_snapshot") := by
  rfl

/-- `Strategy._set_positions` over the configured symbols. -/
def Strategy.set_positions (rules_symbols : List String)
    (lot : String → ℚ) (db_positions_list : List PositionModel)
    (positions : List AccountPositionModel)
    (ordersDb : List OrderModel) : Except PyError Unit :=
  setPositionsGo lot db_positions_list positions ordersDb rules_symbols

/-- Claim C1 counterexample — symbols AAA and BBB, empty store, one
venue LONG position of quantity 1 on AAA: zero reconciled ≠ one venue
position, and `_set_positions` raises RuntimeError instead of marking
AAA busy; BBB is never reconciled.  And with no venue positions at all,
AAA passes the count check and the call crashes anyway, with
AttributeError at the missing `storage.set_snapshot`. -/
theorem strategy_reconciliation_crash_counterexample :
    Strategy.set_positions ["AAA", "BBB"] (fun _ => 1) []
        [⟨"AAA", PositionSide.LONG, 1, 100⟩] [] =
      Except.error
        (PyError.runtimeError "Unknown position found! symbol=AAA") ∧
    Strategy.set_positions ["AAA", "BBB"] (fun _ => 1) [] [] [] =
      Except.error (PyError.attributeError
        "LocalStorage object has no attribute set_snapshot") := by
  exact ⟨rfl, rfl⟩

/-- Claim C1 (amended) — `_set_positions` never marks a symbol busy and
never gets past its FIRST configured symbol: if that symbol's
reconciled-position count differs from its count of venue positions with
positive quantity it raises
`RuntimeError('Unknown position found! symbol=...')`, and otherwise it
raises `AttributeError` at `storage.set_snapshot` (a method the imported
`LocalStorage` lacks).  Startup aborts on every nonempty symbol list;
later symbols are never reconciled. -/
theorem strategy_set_positions_spec (symbols : List String)
    (lot : String → ℚ) (db : List PositionModel)
    (positions : List AccountPositionModel)
    (ordersDb : List OrderModel) :
    (symbols = [] →
      Strategy.set_positions symbols lot db positions ordersDb =
        Except.ok ()) ∧
    (∀ symbol rest, symbols = symbol :: rest →
      ((actualPositionsFor db positions (lot symbol) symbol).length ≠
          (curPositionsFor positions symbol).length →
        Strategy.set_positions symbols lot db positions ordersDb =
          Except.error (PyError.runtimeError
            ("Unknown position found! symbol=" ++ symbol))) ∧
      ((actualPositionsFor db positions (lot symbol) symbol).length =
          (curPositionsFor positions symbol).length →
        Strategy.set_positions symbols lot db positions ordersDb =
          Except.error (PyError.attributeError
            "LocalStorage object has no attribute set_snapshot"))) ∧
    (symbols ≠ [] → ∀ r,
      Strategy.set_positions symbols lot db positions ordersDb ≠
        Except.ok r) := by
  refine ⟨?_, ?_, ?_⟩
  · intro h
    subst h
    rfl
  · intro symbol rest h
    subst h
    constructor
    · intro hmis
      unfold Strategy.set_positions
      rw [setPositionsGo_cons, if_pos hmis]
    · intro hcnt
      unfold Strategy.set_positions
      rw [setPositionsGo_cons, if_neg (fun hcon => hcon hcnt)]
  · intro hne r hok
    cases symbols with
    | nil => exact hne rfl
    | cons symbol rest =>
        unfold Strategy.set_positions at hok
        rw [setPositionsGo_cons] at hok
        by_cases hmis : (actualPositionsFor db positions
            (lot symbol) symbol).length ≠
            (curPositionsFor positions symbol).length
        · rw [if_pos hmis] at hok
          cases hok
        · rw [if_neg hmis] at hok
          cases hok

/-- Concrete instance of claim C1 (amended): a first-symbol mismatch
raises RuntimeError, a reconciling first symbol raises AttributeError,
and an empty symbol list returns. -/
theorem strategy_set_positions_spec_witness :
    Strategy.set_positions ["AAA"] (fun _ => 1) []
        [⟨"AAA", PositionSide.LONG, 1, 100⟩] [] =
      Except.error
        (PyError.runtimeError "Unknown position found! symbol=AAA") ∧
    Strategy.set_positions ["AAA"] (fun _ => 1) [] [] [] =
      Except.error (PyError.attributeError
        "LocalStorage object has no attribute set_snapshot") ∧
    Strategy.set_positions [] (fun _ => 1) [] [] [] = Except.ok () := by
  have h1 := strategy_set_positions_spec ["AAA"] (fun _ => 1) []
    [⟨"AAA", PositionSide.LONG, 1, 100⟩] []
  have h2 := strategy_set_positions_spec ["AAA"] (fun _ => 1) [] [] []
  have h3 := strategy_set_positions_spec [] (fun _ => 1) [] [] []
  exact ⟨(h1.2.1 "AAA" [] rfl).1 (by decide),
    (h2.2.1 "AAA" [] rfl).2 (by decide), h3.1 rfl⟩

end TradingBot
